import Mathlib

/-!
Verification development for the animation subsystem of the auxo-website
repository: the `ParticleSystem` class of `lib/animationPrimitives.ts` and the
`AnimationController` / `AnimationErrorHandler` of `lib/animationController.ts`.

The TypeScript classes are shallowly embedded as Lean structures with explicit
state passing.  Mutable JS objects that are shared by reference (the particle
records, the DOM elements, the nested objects of the controller state) are
modelled by explicit stores keyed by numeric identifiers, so that reference
sharing and in-place mutation are represented faithfully.  Numbers are `ℚ`
(the JS numbers in the relevant code stay in exact rational range).
`requestAnimationFrame` / `cancelAnimationFrame` are modelled by a pending
callback handle in the state plus a fresh-handle counter; the host firing the
scheduled callback is `fireFrame`.  `console.warn` calls and the
`start/pause/cleanup` calls made on section animations are recorded in an
append-only event list.  DOM style writes and element insertions/removals are
recorded in an append-only DOM log.
-/

namespace AuxoAnim

/-! ## Particle system (lib/animationPrimitives.ts) -/

/-- Config of a `ParticleSystem`, from interface `ParticleSystemConfig`. -/
structure ParticleSystemConfig where
  count : Nat
  colors : List String
  sizeMin : ℚ
  sizeMax : ℚ
  speedMin : ℚ
  speedMax : ℚ
  opacityMin : ℚ
  opacityMax : ℚ
  lifetime : ℚ
deriving DecidableEq

/-- Mutable fields of a `Particle` record (interface `Particle`), minus the
`element` back-reference, which is modelled by the `elems` store of the
system keyed by the same particle id. -/
structure PData where
  x : ℚ
  y : ℚ
  vx : ℚ
  vy : ℚ
  opacity : ℚ
  scale : ℚ
  active : Bool
deriving DecidableEq

/-- State of the DOM element bound to a particle: whether it is attached to
the container, and its last written style opacity / transform. -/
structure ElemState where
  inDOM : Bool
  styleOpacity : Option ℚ
  styleTransform : Option (ℚ × ℚ × ℚ)
deriving DecidableEq

/-- One DOM mutation performed by the particle system (the observable side
effects: appending an element, writing transform or opacity, removing an
element). -/
inductive DomMut where
  | append (pid : Nat)
  | setTransform (pid : Nat) (x y scale : ℚ)
  | setOpacity (pid : Nat) (o : ℚ)
  | remove (pid : Nat)
deriving DecidableEq

/-- State of one `ParticleSystem` object.  `particles` is the active list and
`particlePool` the free pool, both JS arrays of references, modelled as lists
of particle ids into the `data` / `elems` stores.  `pending` is the host
scheduler: the handle of the currently scheduled frame callback, if any;
`nextHandle` generates fresh `requestAnimationFrame` handles (starting at 1,
since 0 is the falsy sentinel the source uses for `animationFrame`). -/
@[ext] structure ParticleSystem where
  particles : List Nat
  particlePool : List Nat
  config : ParticleSystemConfig
  data : Nat → PData
  elems : Nat → ElemState
  animationFrame : Nat
  isRunning : Bool
  lastTime : ℚ
  containerW : ℚ
  containerH : ℚ
  pending : Option Nat
  nextHandle : Nat
  domLog : List DomMut

/-- Initial value of a pooled particle record, from `createPool`. -/
def initPData : PData :=
  { x := 0, y := 0, vx := 0, vy := 0, opacity := 0, scale := 1, active := false }

/-- One iteration of the `createPool` loop: create the element, append it to
the container, and push the particle onto `particlePool`. -/
def addPoolParticle (s : ParticleSystem) (i : Nat) : ParticleSystem :=
  { s with
    elems := Function.update s.elems i
      { inDOM := true, styleOpacity := none, styleTransform := none }
    domLog := s.domLog ++ [DomMut.append i]
    particlePool := s.particlePool ++ [i] }

/-- The `createPool` loop, executed by the constructor: `config.count`
iterations pushing particles 0, 1, ... onto the pool. -/
def createPool (s : ParticleSystem) : ParticleSystem :=
  (List.range s.config.count).foldl addPoolParticle s

/-- The `ParticleSystem` constructor: store container and config, then
`createPool`. `w`/`h` are the container offsetWidth/offsetHeight. -/
def initPS (cfg : ParticleSystemConfig) (w h : ℚ) : ParticleSystem :=
  createPool
    { particles := []
      particlePool := []
      config := cfg
      data := fun _ => initPData
      elems := fun _ => { inDOM := false, styleOpacity := none, styleTransform := none }
      animationFrame := 0
      isRunning := false
      lastTime := 0
      containerW := w
      containerH := h
      pending := none
      nextHandle := 1
      domLog := [] }

/-- Effect of `this.animationFrame = requestAnimationFrame(this.animate)`:
a fresh nonzero handle is returned and stored, and the callback becomes the
pending scheduled frame. -/
def afterFrameRequest (s : ParticleSystem) : ParticleSystem :=
  { s with
    pending := some s.nextHandle
    nextHandle := s.nextHandle + 1
    animationFrame := s.nextHandle }

/-- JS `cancelAnimationFrame h`: unschedules the pending callback if its
handle is `h`. -/
def cancelFrame (h : Nat) (s : ParticleSystem) : ParticleSystem :=
  if s.pending = some h then { s with pending := none } else s

/-- `getParticle`: pop a particle off the free pool (JS `Array.pop` takes the
last element); if one exists, mark it active and push it onto the active
list, returning it; otherwise return null. -/
def getParticle (s : ParticleSystem) : Option Nat × ParticleSystem :=
  match s.particlePool.getLast? with
  | none => (none, s)
  | some pid =>
      (some pid,
        { s with
          particlePool := s.particlePool.dropLast
          data := Function.update s.data pid { s.data pid with active := true }
          particles := s.particles ++ [pid] })

/-- First half of `returnParticle`: set `active := false` and write style
opacity 0 on the bound element. -/
def returnParticleMark (pid : Nat) (s : ParticleSystem) : ParticleSystem :=
  { s with
    data := Function.update s.data pid { s.data pid with active := false }
    elems := Function.update s.elems pid { s.elems pid with styleOpacity := some 0 }
    domLog := s.domLog ++ [DomMut.setOpacity pid 0] }

/-- `returnParticle`: mark the particle inactive (`returnParticleMark`), then
if it is found in the active list (`indexOf` / `splice` of the first
occurrence), remove it there and push it onto the pool. -/
def returnParticle (pid : Nat) (s : ParticleSystem) : ParticleSystem :=
  if pid ∈ (returnParticleMark pid s).particles then
    { returnParticleMark pid s with
      particles := (returnParticleMark pid s).particles.erase pid
      particlePool := (returnParticleMark pid s).particlePool ++ [pid] }
  else returnParticleMark pid s

/-- `updateParticleElement`: write the transform (`translate3d` + `scale`)
and opacity of the bound element from the particle state. -/
def updateParticleElement (pid : Nat) (s : ParticleSystem) : ParticleSystem :=
  { s with
    elems := Function.update s.elems pid
      { s.elems pid with
        styleTransform := some ((s.data pid).x, (s.data pid).y, (s.data pid).scale)
        styleOpacity := some (s.data pid).opacity }
    domLog := s.domLog ++
      [DomMut.setTransform pid (s.data pid).x (s.data pid).y (s.data pid).scale,
       DomMut.setOpacity pid (s.data pid).opacity] }

/-- Opacity assigned on spawn: `opacity.min + Math.random() * (opacity.max -
opacity.min)`; the random draw is the explicit parameter `r`. -/
def spawnOpacity (cfg : ParticleSystemConfig) (r : ℚ) : ℚ :=
  cfg.opacityMin + r * (cfg.opacityMax - cfg.opacityMin)

/-- The field initialization of `spawnParticle` on the particle taken from
the pool. -/
def spawnInit (x y vx vy rOp rSc : ℚ) (pid : Nat) (s : ParticleSystem) : ParticleSystem :=
  { s with
    data := Function.update s.data pid
      { s.data pid with
        x := x, y := y, vx := vx, vy := vy
        opacity := spawnOpacity s.config rOp
        scale := 1/2 + rSc * (1/2) } }

/-- `spawnParticle(x, y, vx, vy)`: take a particle from the pool (silently a
no-op when the pool is empty), initialize its kinematic and visual state, and
write its element styles.  `rOp`/`rSc` are the two `Math.random()` draws. -/
def spawnParticle (x y vx vy rOp rSc : ℚ) (s : ParticleSystem) : ParticleSystem :=
  match getParticle s with
  | (none, s1) => s1
  | (some pid, s1) => updateParticleElement pid (spawnInit x y vx vy rOp rSc pid s1)

/-- Advance one particle record by `deltaTime`: position by velocity, opacity
down by `deltaTime / lifetime` (the first three statements of the
`updateParticles` loop body). -/
def advP (dt lifetime : ℚ) (d : PData) : PData :=
  { d with
    x := d.x + d.vx * dt
    y := d.y + d.vy * dt
    opacity := d.opacity - dt / lifetime }

/-- Removal test of `updateParticles`: faded out, or outside the container
box padded by 50 (applied to the already-updated particle fields; it reads
only the container dimensions from the system). -/
def gone (s : ParticleSystem) (d : PData) : Bool :=
  decide (d.opacity ≤ 0) || decide (d.x < -50) || decide (d.x > s.containerW + 50) ||
    decide (d.y < -50) || decide (d.y > s.containerH + 50)

/-- Store the advanced record of particle `pid` back (the in-place mutation
of the particle object in the loop body). -/
def advanceAt (dt : ℚ) (pid : Nat) (s : ParticleSystem) : ParticleSystem :=
  { s with data := Function.update s.data pid (advP dt s.config.lifetime (s.data pid)) }

/-- Body of the `updateParticles` loop at index `i`: read `particles[i]`,
advance it in place, then either return it to the pool or write its element
styles. -/
def updateStep (dt : ℚ) (s : ParticleSystem) (i : Nat) : ParticleSystem :=
  match s.particles.get? i with
  | none => s
  | some pid =>
      if gone s (advP dt s.config.lifetime (s.data pid)) then
        returnParticle pid (advanceAt dt pid s)
      else
        updateParticleElement pid (advanceAt dt pid s)

/-- The `for (let i = particles.length - 1; i >= 0; i--)` loop: indices are
processed downward; `updateLoop dt i` processes indices `i-1, ..., 0`. -/
def updateLoop (dt : ℚ) : Nat → ParticleSystem → ParticleSystem
  | 0, s => s
  | i + 1, s => updateLoop dt i (updateStep dt s i)

/-- `updateParticles(deltaTime)`. -/
def updateParticles (dt : ℚ) (s : ParticleSystem) : ParticleSystem :=
  updateLoop dt s.particles.length s

/-- The `deltaTime` computed by the `animate` callback: elapsed milliseconds
since the previous frame over 1000, capped at 0.016; `lastTime ||
currentTime` makes the first frame (stored `lastTime` still 0) elapse 0. -/
def animDt (currentTime : ℚ) (s : ParticleSystem) : ℚ :=
  min ((currentTime - (if s.lastTime = 0 then currentTime else s.lastTime)) / 1000) (16/1000)

/-- The `animate` frame callback: bail out if not running; compute
`deltaTime`, store `lastTime`, update particles, and re-request the next
frame. -/
def animate (currentTime : ℚ) (s : ParticleSystem) : ParticleSystem :=
  if s.isRunning = false then s
  else
    afterFrameRequest
      (updateParticles (animDt currentTime s) { s with lastTime := currentTime })

/-- Host scheduler firing the pending frame callback at time `t`: the pending
entry is consumed and `animate` runs; nothing happens when nothing is
scheduled. -/
def fireFrame (t : ℚ) (s : ParticleSystem) : ParticleSystem :=
  match s.pending with
  | none => s
  | some _ => animate t { s with pending := none }

/-- `start()`: idempotent; mark running and request the first frame. -/
def start (s : ParticleSystem) : ParticleSystem :=
  if s.isRunning then s
  else afterFrameRequest { s with isRunning := true }

/-- `stop()`: clear the running flag and cancel the pending frame (the stored
handle 0 is falsy, so nothing is cancelled when no frame was requested). -/
def stop (s : ParticleSystem) : ParticleSystem :=
  if s.animationFrame ≠ 0 then
    { cancelFrame s.animationFrame { s with isRunning := false } with animationFrame := 0 }
  else { s with isRunning := false }

/-- The `while (particles.length > 0) returnParticle(particles[0])` loop of
`reset`, with the initial length as fuel. -/
def returnAllLoop : Nat → ParticleSystem → ParticleSystem
  | 0, s => s
  | n + 1, s =>
      match s.particles.head? with
      | none => s
      | some pid => returnAllLoop n (returnParticle pid s)

/-- `reset()`: stop, then return every active particle to the pool. -/
def reset (s : ParticleSystem) : ParticleSystem :=
  returnAllLoop (stop s).particles.length (stop s)

/-- One iteration of the element-removal loop of `cleanup`: remove the
element of the given particle from the container when it is attached
(the `parentNode` guard of the source). -/
def removeElemStep (acc : ParticleSystem) (pid : Nat) : ParticleSystem :=
  if (acc.elems pid).inDOM then
    { acc with
      elems := Function.update acc.elems pid { acc.elems pid with inDOM := false }
      domLog := acc.domLog ++ [DomMut.remove pid] }
  else acc

/-- The element-removal loop of `cleanup` over `[...particlePool,
...particles]`. -/
def removeElems (pids : List Nat) (s : ParticleSystem) : ParticleSystem :=
  pids.foldl removeElemStep s

/-- `cleanup()`: reset, remove the elements of `[...particlePool,
...particles]` from the DOM, and empty both collections. -/
def cleanup (s : ParticleSystem) : ParticleSystem :=
  { removeElems ((reset s).particlePool ++ (reset s).particles) (reset s) with
    particles := []
    particlePool := [] }

/-! ## Basic lemmas about the particle system -/

lemma foldl_addPool_particlePool (l : List Nat) (s : ParticleSystem) :
    (l.foldl addPoolParticle s).particlePool = s.particlePool ++ l := by
  induction l generalizing s with
  | nil => simp
  | cons a l ih => simp [ih, addPoolParticle]

lemma foldl_addPool_particles (l : List Nat) (s : ParticleSystem) :
    (l.foldl addPoolParticle s).particles = s.particles := by
  induction l generalizing s with
  | nil => simp
  | cons a l ih => simp [ih, addPoolParticle]

@[simp] lemma initPS_particlePool (cfg : ParticleSystemConfig) (w h : ℚ) :
    (initPS cfg w h).particlePool = List.range cfg.count := by
  simp [initPS, createPool, foldl_addPool_particlePool]

@[simp] lemma initPS_particles (cfg : ParticleSystemConfig) (w h : ℚ) :
    (initPS cfg w h).particles = [] := by
  simp [initPS, createPool, foldl_addPool_particles]

@[simp] lemma updateParticleElement_particles (pid : Nat) (s : ParticleSystem) :
    (updateParticleElement pid s).particles = s.particles := rfl

@[simp] lemma updateParticleElement_particlePool (pid : Nat) (s : ParticleSystem) :
    (updateParticleElement pid s).particlePool = s.particlePool := rfl

@[simp] lemma returnParticleMark_particles (pid : Nat) (s : ParticleSystem) :
    (returnParticleMark pid s).particles = s.particles := rfl

@[simp] lemma returnParticleMark_particlePool (pid : Nat) (s : ParticleSystem) :
    (returnParticleMark pid s).particlePool = s.particlePool := rfl

@[simp] lemma spawnInit_particles (x y vx vy rOp rSc : ℚ) (pid : Nat) (s : ParticleSystem) :
    (spawnInit x y vx vy rOp rSc pid s).particles = s.particles := rfl

@[simp] lemma spawnInit_particlePool (x y vx vy rOp rSc : ℚ) (pid : Nat) (s : ParticleSystem) :
    (spawnInit x y vx vy rOp rSc pid s).particlePool = s.particlePool := rfl

@[simp] lemma advanceAt_particles (dt : ℚ) (pid : Nat) (s : ParticleSystem) :
    (advanceAt dt pid s).particles = s.particles := rfl

@[simp] lemma advanceAt_particlePool (dt : ℚ) (pid : Nat) (s : ParticleSystem) :
    (advanceAt dt pid s).particlePool = s.particlePool := rfl

lemma spawnParticle_of_pool_nil (s : ParticleSystem) (x y vx vy rOp rSc : ℚ)
    (hp : s.particlePool = []) : spawnParticle x y vx vy rOp rSc s = s := by
  unfold spawnParticle getParticle
  rw [hp]
  rfl

lemma spawnParticle_lengths_of_pool_ne_nil (s : ParticleSystem) (x y vx vy rOp rSc : ℚ)
    (hp : s.particlePool ≠ []) :
    (spawnParticle x y vx vy rOp rSc s).particles.length = s.particles.length + 1 ∧
    (spawnParticle x y vx vy rOp rSc s).particlePool.length = s.particlePool.length - 1 := by
  rcases (s.particlePool.eq_nil_or_concat).resolve_left hp with ⟨l', a, hconc⟩
  unfold spawnParticle getParticle
  rw [hconc, List.concat_eq_append, List.getLast?_concat]
  simp [hconc]

/-- The spawn arguments of one `spawnParticle` call (coordinates, velocity,
and the two random draws). -/
structure SpawnArgs where
  x : ℚ
  y : ℚ
  vx : ℚ
  vy : ℚ
  rOp : ℚ
  rSc : ℚ

/-- A burst of `k` `spawnParticle` calls with argument stream `f` (no frame
update in between). -/
def spawnBurst (f : Nat → SpawnArgs) : Nat → ParticleSystem → ParticleSystem
  | 0, s => s
  | k + 1, s =>
      spawnBurst f k (spawnParticle (f k).x (f k).y (f k).vx (f k).vy (f k).rOp (f k).rSc s)

lemma spawnBurst_lengths (f : Nat → SpawnArgs) :
    ∀ (k : Nat) (s : ParticleSystem),
      (spawnBurst f k s).particles.length = s.particles.length + min k s.particlePool.length ∧
      (spawnBurst f k s).particlePool.length = s.particlePool.length - k := by
  intro k
  induction k with
  | zero => intro s; simp [spawnBurst]
  | succ k ih =>
      intro s
      by_cases hp : s.particlePool = []
      · have hid := spawnParticle_of_pool_nil s (f k).x (f k).y (f k).vx (f k).vy (f k).rOp (f k).rSc hp
        have := ih s
        simp [spawnBurst, hid, this.1, this.2, hp]
      · have hl := spawnParticle_lengths_of_pool_ne_nil s (f k).x (f k).y (f k).vx (f k).vy (f k).rOp (f k).rSc hp
        have := ih (spawnParticle (f k).x (f k).y (f k).vx (f k).vy (f k).rOp (f k).rSc s)
        have hpos : 1 ≤ s.particlePool.length := by
          cases hq : s.particlePool.length with
          | zero => exact absurd (List.length_eq_zero.mp hq) hp
          | succ n => omega
        constructor
        · rw [spawnBurst, this.1, hl.1, hl.2]
          omega
        · rw [spawnBurst, this.2, hl.2]
          omega

/-- The hero section config of `AnimatedBackground` (`initializeHeroAnimation`
in `OptimizedImage.tsx`): pool size 60. -/
def heroConfig : ParticleSystemConfig :=
  { count := 60
    colors := [("rgba(154, 205, 50, 0.4)"), ("rgba(241, 241, 240, 0.3)")]
    sizeMin := 2
    sizeMax := 4
    speedMin := 1/2
    speedMax := 3/2
    opacityMin := 3/10
    opacityMax := 4/5
    lifetime := 8000 }

/-- A config with pool capacity 0, giving a system whose free pool is
exhausted from the start. -/
def zeroConfig : ParticleSystemConfig :=
  { heroConfig with count := 0 }

/-- Claim C1: once the free pool is exhausted, every further `spawnParticle`
call is a silent no-op leaving the whole system state unchanged (so it
allocates nothing and throws nothing); the active-particle count never
exceeds the pool capacity; and a burst of 1000 spawn calls on a fresh pool of
60 leaves exactly 60 particles active. -/
theorem c1_spawnParticle_bounded_by_pool :
    (∀ (s : ParticleSystem) (x y vx vy rOp rSc : ℚ),
        s.particlePool = [] → spawnParticle x y vx vy rOp rSc s = s) ∧
    (∀ (f : Nat → SpawnArgs) (w h : ℚ),
        (spawnBurst f 1000 (initPS heroConfig w h)).particles.length = 60 ∧
        (spawnBurst f 1000 (initPS heroConfig w h)).particlePool.length = 0) ∧
    (∀ (f : Nat → SpawnArgs) (k : Nat) (w h : ℚ),
        (spawnBurst f k (initPS heroConfig w h)).particles.length ≤ 60) := by
  refine ⟨spawnParticle_of_pool_nil, fun f w h => ?_, fun f k w h => ?_⟩
  · have := spawnBurst_lengths f 1000 (initPS heroConfig w h)
    simpa [heroConfig] using this
  · have := (spawnBurst_lengths f k (initPS heroConfig w h)).1
    rw [this]
    simp [heroConfig]

/-- Witness for C1: a concrete system whose pool is exhausted (capacity 0),
on which a concrete spawn call changes nothing. -/
theorem c1_spawnParticle_bounded_by_pool_witness :
    (initPS zeroConfig 100 100).particlePool = [] ∧
    spawnParticle 5 5 1 1 0 0 (initPS zeroConfig 100 100) = initPS zeroConfig 100 100 :=
  ⟨by decide, c1_spawnParticle_bounded_by_pool.1 (initPS zeroConfig 100 100) 5 5 1 1 0 0 (by decide)⟩

/-! ## The pool/active partition invariant (claim C2) -/

lemma returnParticle_perm (pid : Nat) (s : ParticleSystem) :
    ((returnParticle pid s).particlePool ++ (returnParticle pid s).particles).Perm
      (s.particlePool ++ s.particles) := by
  unfold returnParticle
  by_cases h : pid ∈ (returnParticleMark pid s).particles
  · rw [if_pos h]
    have h' : pid ∈ s.particles := h
    show ((s.particlePool ++ [pid]) ++ s.particles.erase pid).Perm
      (s.particlePool ++ s.particles)
    rw [List.append_assoc]
    have h1 : (pid :: s.particles.erase pid).Perm s.particles :=
      (List.perm_cons_erase h').symm
    simpa using List.Perm.append_left s.particlePool h1
  · rw [if_neg h]
    exact List.Perm.refl _

lemma getParticle_perm (s : ParticleSystem) :
    (((getParticle s).2).particlePool ++ ((getParticle s).2).particles).Perm
      (s.particlePool ++ s.particles) := by
  unfold getParticle
  rcases s.particlePool.eq_nil_or_concat with h | ⟨l', a, h⟩
  · rw [h]; simp [h]
  · rw [h, List.concat_eq_append, List.getLast?_concat]
    show ((l' ++ [a]).dropLast ++ (s.particles ++ [a])).Perm
      ((l' ++ [a]) ++ s.particles)
    rw [List.dropLast_concat, List.append_assoc]
    exact List.Perm.append_left l' List.perm_append_comm

lemma spawnParticle_perm (x y vx vy rOp rSc : ℚ) (s : ParticleSystem) :
    ((spawnParticle x y vx vy rOp rSc s).particlePool ++
      (spawnParticle x y vx vy rOp rSc s).particles).Perm
      (s.particlePool ++ s.particles) := by
  unfold spawnParticle
  rcases hg : getParticle s with ⟨o, s1⟩
  have hperm := getParticle_perm s
  rw [hg] at hperm
  cases o with
  | none => exact hperm
  | some pid => simpa using hperm

lemma updateStep_perm (dt : ℚ) (s : ParticleSystem) (i : Nat) :
    ((updateStep dt s i).particlePool ++ (updateStep dt s i).particles).Perm
      (s.particlePool ++ s.particles) := by
  unfold updateStep
  cases hg : s.particles.get? i with
  | none => exact List.Perm.refl _
  | some pid =>
      dsimp only
      by_cases hgone : gone s (advP dt s.config.lifetime (s.data pid))
      · rw [if_pos hgone]
        simpa using returnParticle_perm pid (advanceAt dt pid s)
      · rw [if_neg hgone]
        simp

lemma updateLoop_perm (dt : ℚ) :
    ∀ (n : Nat) (s : ParticleSystem),
      ((updateLoop dt n s).particlePool ++ (updateLoop dt n s).particles).Perm
        (s.particlePool ++ s.particles) := by
  intro n
  induction n with
  | zero => intro s; exact List.Perm.refl _
  | succ n ih =>
      intro s
      exact (ih (updateStep dt s n)).trans (updateStep_perm dt s n)

lemma updateParticles_perm (dt : ℚ) (s : ParticleSystem) :
    ((updateParticles dt s).particlePool ++ (updateParticles dt s).particles).Perm
      (s.particlePool ++ s.particles) :=
  updateLoop_perm dt s.particles.length s

@[simp] lemma afterFrameRequest_particles (s : ParticleSystem) :
    (afterFrameRequest s).particles = s.particles := rfl

@[simp] lemma afterFrameRequest_particlePool (s : ParticleSystem) :
    (afterFrameRequest s).particlePool = s.particlePool := rfl

@[simp] lemma stop_particles (s : ParticleSystem) : (stop s).particles = s.particles := by
  unfold stop cancelFrame
  split <;> [split <;> rfl; rfl]

@[simp] lemma stop_particlePool (s : ParticleSystem) : (stop s).particlePool = s.particlePool := by
  unfold stop cancelFrame
  split <;> [split <;> rfl; rfl]

@[simp] lemma start_particles (s : ParticleSystem) : (start s).particles = s.particles := by
  unfold start
  split <;> rfl

@[simp] lemma start_particlePool (s : ParticleSystem) : (start s).particlePool = s.particlePool := by
  unfold start
  split <;> rfl

lemma animate_perm (t : ℚ) (s : ParticleSystem) :
    ((animate t s).particlePool ++ (animate t s).particles).Perm
      (s.particlePool ++ s.particles) := by
  unfold animate
  by_cases hr : s.isRunning = false
  · simp [hr]
  · rw [if_neg hr]
    simpa using updateParticles_perm (animDt t s) { s with lastTime := t }

lemma fireFrame_perm (t : ℚ) (s : ParticleSystem) :
    ((fireFrame t s).particlePool ++ (fireFrame t s).particles).Perm
      (s.particlePool ++ s.particles) := by
  unfold fireFrame
  cases s.pending with
  | none => exact List.Perm.refl _
  | some h => exact animate_perm t _

lemma returnAllLoop_perm :
    ∀ (n : Nat) (s : ParticleSystem),
      ((returnAllLoop n s).particlePool ++ (returnAllLoop n s).particles).Perm
        (s.particlePool ++ s.particles) := by
  intro n
  induction n with
  | zero => intro s; exact List.Perm.refl _
  | succ n ih =>
      intro s
      unfold returnAllLoop
      cases hh : s.particles.head? with
      | none => exact List.Perm.refl _
      | some pid => exact (ih _).trans (returnParticle_perm pid s)

lemma reset_perm (s : ParticleSystem) :
    ((reset s).particlePool ++ (reset s).particles).Perm
      (s.particlePool ++ s.particles) := by
  unfold reset
  refine (returnAllLoop_perm _ _).trans ?_
  simp

/-- States of a `ParticleSystem` reachable from construction by the public
operations the system is driven with between construction and cleanup:
`spawnParticle`, the internally driven per-frame update (`animate`, fired by
the host via `fireFrame`), `start`, `stop` and `reset`. -/
inductive PReach (cfg : ParticleSystemConfig) (w h : ℚ) : ParticleSystem → Prop where
  | init : PReach cfg w h (initPS cfg w h)
  | spawn (x y vx vy rOp rSc : ℚ) {s : ParticleSystem} :
      PReach cfg w h s → PReach cfg w h (spawnParticle x y vx vy rOp rSc s)
  | frame (t : ℚ) {s : ParticleSystem} :
      PReach cfg w h s → PReach cfg w h (fireFrame t s)
  | update (t : ℚ) {s : ParticleSystem} :
      PReach cfg w h s → PReach cfg w h (animate t s)
  | startOp {s : ParticleSystem} : PReach cfg w h s → PReach cfg w h (start s)
  | stopOp {s : ParticleSystem} : PReach cfg w h s → PReach cfg w h (stop s)
  | resetOp {s : ParticleSystem} : PReach cfg w h s → PReach cfg w h (reset s)

/-- Claim C2: at every observation point between construction and cleanup,
the `config.count` particles created at construction are partitioned between
the free pool and the active list: the two collections together are a
permutation of the particle ids `0, ..., count - 1` (so none is ever
destroyed or duplicated), and each particle is in exactly one of the two
collections.  The partition is preserved by `spawnParticle`, the per-frame
update, `start`, `stop` and `reset`. -/
theorem c2_pool_active_partition (cfg : ParticleSystemConfig) (w h : ℚ)
    (s : ParticleSystem) (hr : PReach cfg w h s) :
    (s.particlePool ++ s.particles).Perm (List.range cfg.count) ∧
    ∀ pid, pid < cfg.count →
      (pid ∈ s.particlePool ∧ pid ∉ s.particles) ∨
      (pid ∈ s.particles ∧ pid ∉ s.particlePool) := by
  have hperm : (s.particlePool ++ s.particles).Perm (List.range cfg.count) := by
    induction hr with
    | init => simp
    | spawn x y vx vy rOp rSc hs ih => exact (spawnParticle_perm x y vx vy rOp rSc _).trans ih
    | frame t hs ih => exact (fireFrame_perm t _).trans ih
    | update t hs ih => exact (animate_perm t _).trans ih
    | startOp hs ih => simpa using ih
    | stopOp hs ih => simpa using ih
    | resetOp hs ih => exact (reset_perm _).trans ih
  refine ⟨hperm, fun pid hpid => ?_⟩
  have hmem : pid ∈ s.particlePool ++ s.particles := by
    rw [hperm.mem_iff]
    exact List.mem_range.mpr hpid
  have hnd : (s.particlePool ++ s.particles).Nodup :=
    hperm.nodup_iff.mpr (List.nodup_range _)
  have hdisj := (List.nodup_append.mp hnd).2.2
  rcases List.mem_append.mp hmem with h1 | h2
  · exact Or.inl ⟨h1, fun h2 => hdisj h1 h2⟩
  · exact Or.inr ⟨h2, fun h1 => hdisj h1 h2⟩

/-- Witness for C2: the partition permutation evaluated on a concrete
reachable state (one spawn after construction of the hero system). -/
theorem c2_pool_active_partition_witness :
    ((spawnParticle 5 5 1 1 0 0 (initPS heroConfig 100 100)).particlePool ++
      (spawnParticle 5 5 1 1 0 0 (initPS heroConfig 100 100)).particles).Perm
      (List.range 60) :=
  (c2_pool_active_partition heroConfig 100 100 _
    (PReach.spawn 5 5 1 1 0 0 PReach.init)).1

/-! ## Characterization of the per-frame update (claim C7) -/

/-- A particle survives the update when its advanced record is not removed. -/
def surviveB (s : ParticleSystem) (dt : ℚ) (pid : Nat) : Bool :=
  !(gone s (advP dt s.config.lifetime (s.data pid)))

/-- The record of a particle after the update step processed it: advanced,
and additionally deactivated when it was returned to the pool. -/
def postData (s : ParticleSystem) (dt : ℚ) (pid : Nat) : PData :=
  if gone s (advP dt s.config.lifetime (s.data pid)) then
    { advP dt s.config.lifetime (s.data pid) with active := false }
  else advP dt s.config.lifetime (s.data pid)

lemma surviveB_congr (s1 s2 : ParticleSystem) (dt : ℚ) (pid : Nat)
    (hd : s1.data pid = s2.data pid) (hc : s1.config = s2.config)
    (hw : s1.containerW = s2.containerW) (hh : s1.containerH = s2.containerH) :
    surviveB s1 dt pid = surviveB s2 dt pid := by
  unfold surviveB gone
  rw [hd, hc, hw, hh]

lemma postData_congr (s1 s2 : ParticleSystem) (dt : ℚ) (pid : Nat)
    (hd : s1.data pid = s2.data pid) (hc : s1.config = s2.config)
    (hw : s1.containerW = s2.containerW) (hh : s1.containerH = s2.containerH) :
    postData s1 dt pid = postData s2 dt pid := by
  unfold postData gone
  rw [hd, hc, hw, hh]

lemma returnParticle_eq_of_mem (pid : Nat) (s : ParticleSystem) (h : pid ∈ s.particles) :
    returnParticle pid s =
      { returnParticleMark pid s with
        particles := s.particles.erase pid
        particlePool := s.particlePool ++ [pid] } := by
  unfold returnParticle
  rw [if_pos (show pid ∈ (returnParticleMark pid s).particles from h)]
  rfl

@[simp] lemma advanceAt_data (dt : ℚ) (pid : Nat) (s : ParticleSystem) :
    (advanceAt dt pid s).data = Function.update s.data pid (advP dt s.config.lifetime (s.data pid)) := rfl

@[simp] lemma advanceAt_config (dt : ℚ) (pid : Nat) (s : ParticleSystem) :
    (advanceAt dt pid s).config = s.config := rfl

@[simp] lemma advanceAt_containerW (dt : ℚ) (pid : Nat) (s : ParticleSystem) :
    (advanceAt dt pid s).containerW = s.containerW := rfl

@[simp] lemma advanceAt_containerH (dt : ℚ) (pid : Nat) (s : ParticleSystem) :
    (advanceAt dt pid s).containerH = s.containerH := rfl

@[simp] lemma updateParticleElement_data (pid : Nat) (s : ParticleSystem) :
    (updateParticleElement pid s).data = s.data := rfl

@[simp] lemma updateParticleElement_config (pid : Nat) (s : ParticleSystem) :
    (updateParticleElement pid s).config = s.config := rfl

@[simp] lemma updateParticleElement_containerW (pid : Nat) (s : ParticleSystem) :
    (updateParticleElement pid s).containerW = s.containerW := rfl

@[simp] lemma updateParticleElement_containerH (pid : Nat) (s : ParticleSystem) :
    (updateParticleElement pid s).containerH = s.containerH := rfl

lemma nodup_shift {pre rest : List Nat} {a : Nat} (hnd : ((pre ++ [a]) ++ rest).Nodup) :
    (pre ++ ([a] ++ rest)).Nodup := by
  rwa [List.append_assoc] at hnd

lemma nodup_drop_mid {pre rest : List Nat} {a : Nat} (hnd : ((pre ++ [a]) ++ rest).Nodup) :
    (pre ++ rest).Nodup := by
  have h1 := nodup_shift hnd
  rcases List.nodup_append.mp h1 with ⟨hp, har, hdisj⟩
  refine List.nodup_append.mpr ⟨hp, ?_, ?_⟩
  · exact (List.nodup_cons.mp har).2
  · intro x hx hxr
    exact hdisj hx (List.mem_append_right _ hxr)

lemma not_mem_left_of_nodup {pre rest : List Nat} {a : Nat}
    (hnd : ((pre ++ [a]) ++ rest).Nodup) : a ∉ pre := by
  have h1 := nodup_shift hnd
  rcases List.nodup_append.mp h1 with ⟨hp, har, hdisj⟩
  intro hmem
  exact hdisj hmem (List.mem_append_left _ (List.mem_singleton.mpr rfl))

/-- Full characterization of the downward `updateParticles` loop on the first
`pre.length` positions of the active list `pre ++ rest`: survivors of `pre`
stay (in order), removed particles are appended to the pool in reverse
prefix order, and each processed particle carries its advanced record. -/
lemma updateLoop_spec (dt : ℚ) (pre : List Nat) :
    ∀ (rest : List Nat) (s : ParticleSystem),
      s.particles = pre ++ rest → ((pre ++ rest).Nodup) →
      (updateLoop dt pre.length s).particles = pre.filter (surviveB s dt) ++ rest ∧
      (updateLoop dt pre.length s).particlePool
        = s.particlePool ++ (pre.filter (fun pid => !surviveB s dt pid)).reverse ∧
      (∀ pid, pid ∉ pre → (updateLoop dt pre.length s).data pid = s.data pid) ∧
      (∀ pid ∈ pre, (updateLoop dt pre.length s).data pid = postData s dt pid) ∧
      (updateLoop dt pre.length s).config = s.config ∧
      (updateLoop dt pre.length s).containerW = s.containerW ∧
      (updateLoop dt pre.length s).containerH = s.containerH := by
  induction pre using List.reverseRecOn with
  | nil =>
      intro rest s hs hnd
      simp [updateLoop, hs]
  | append_singleton pre' a ih =>
      intro rest s hs hnd
      have ha_pre : a ∉ pre' := not_mem_left_of_nodup hnd
      have hget : s.particles.get? pre'.length = some a := by
        rw [hs, List.append_assoc, List.get?_append_right (le_refl pre'.length)]
        simp
      have hlen : (pre' ++ [a]).length = pre'.length + 1 := by simp
      rw [hlen]
      rw [show updateLoop dt (pre'.length + 1) s
            = updateLoop dt pre'.length (updateStep dt s pre'.length) from rfl]
      by_cases hgone : gone s (advP dt s.config.lifetime (s.data a))
      · -- the particle at the processed index is returned to the pool
        have hmem : a ∈ (advanceAt dt a s).particles := by
          rw [advanceAt_particles, hs]
          exact List.mem_append_left _ (List.mem_append_right _ (List.mem_singleton.mpr rfl))
        have hstep : updateStep dt s pre'.length = returnParticle a (advanceAt dt a s) := by
          unfold updateStep
          rw [hget]
          dsimp only
          rw [if_pos hgone]
        rw [hstep]
        have hret := returnParticle_eq_of_mem a (advanceAt dt a s) hmem
        have h2particles : (returnParticle a (advanceAt dt a s)).particles = pre' ++ rest := by
          rw [hret]
          show ((advanceAt dt a s).particles).erase a = pre' ++ rest
          rw [advanceAt_particles, hs, List.append_assoc, List.erase_append_right _ ha_pre]
          simp
        have h2pool : (returnParticle a (advanceAt dt a s)).particlePool
            = s.particlePool ++ [a] := by
          rw [hret]
          rfl
        have h2data : (returnParticle a (advanceAt dt a s)).data
            = Function.update s.data a (postData s dt a) := by
          rw [hret]
          show Function.update (advanceAt dt a s).data a
              { (advanceAt dt a s).data a with active := false }
            = Function.update s.data a (postData s dt a)
          rw [advanceAt_data, Function.update_idem]
          rw [Function.update_same]
          unfold postData
          rw [if_pos hgone]
        have h2config : (returnParticle a (advanceAt dt a s)).config = s.config := by
          rw [hret]
          rfl
        have h2w : (returnParticle a (advanceAt dt a s)).containerW = s.containerW := by
          rw [hret]
          rfl
        have h2h : (returnParticle a (advanceAt dt a s)).containerH = s.containerH := by
          rw [hret]
          rfl
        have h2dataeq : ∀ pid, pid ≠ a →
            (returnParticle a (advanceAt dt a s)).data pid = s.data pid := by
          intro pid hne
          rw [h2data, Function.update_noteq hne]
        have hsurv_eq : ∀ pid ∈ pre',
            surviveB (returnParticle a (advanceAt dt a s)) dt pid = surviveB s dt pid := by
          intro pid hpid
          exact surviveB_congr _ s dt pid (h2dataeq pid (fun he => ha_pre (he ▸ hpid)))
            h2config h2w h2h
        have hpost_eq : ∀ pid ∈ pre',
            postData (returnParticle a (advanceAt dt a s)) dt pid = postData s dt pid := by
          intro pid hpid
          exact postData_congr _ s dt pid (h2dataeq pid (fun he => ha_pre (he ▸ hpid)))
            h2config h2w h2h
        obtain ⟨ihp, ihpool, ihout, ihin, ihc, ihw, ihh⟩ :=
          ih rest (returnParticle a (advanceAt dt a s)) h2particles (nodup_drop_mid hnd)
        have hsurva : surviveB s dt a = false := by
          unfold surviveB
          rw [hgone]
          rfl
        have hfc : pre'.filter (surviveB (returnParticle a (advanceAt dt a s)) dt)
            = pre'.filter (surviveB s dt) :=
          List.filter_congr hsurv_eq
        have hfcn : pre'.filter (fun pid => !surviveB (returnParticle a (advanceAt dt a s)) dt pid)
            = pre'.filter (fun pid => !surviveB s dt pid) :=
          List.filter_congr (by intro pid hpid; rw [hsurv_eq pid hpid])
        refine ⟨?_, ?_, ?_, ?_, ?_, ?_, ?_⟩
        · rw [ihp, hfc, List.filter_append]
          simp [hsurva]
        · rw [ihpool, h2pool, hfcn, List.filter_append]
          simp [hsurva]
        · intro pid hpid
          have hpid' : pid ∉ pre' := fun hc => hpid (List.mem_append_left _ hc)
          have hpa : pid ≠ a := fun he =>
            hpid (List.mem_append_right _ (he ▸ List.mem_singleton.mpr rfl))
          rw [ihout pid hpid', h2dataeq pid hpa]
        · intro pid hpid
          rcases List.mem_append.mp hpid with hpl | hpr
          · rw [ihin pid hpl, hpost_eq pid hpl]
          · have hpa : pid = a := List.mem_singleton.mp hpr
            subst hpa
            rw [ihout pid ha_pre, h2data, Function.update_same]
        · rw [ihc, h2config]
        · rw [ihw, h2w]
        · rw [ihh, h2h]
      · -- the particle at the processed index survives
        have hstep : updateStep dt s pre'.length = updateParticleElement a (advanceAt dt a s) := by
          unfold updateStep
          rw [hget]
          dsimp only
          rw [if_neg hgone]
        rw [hstep]
        have h2particles : (updateParticleElement a (advanceAt dt a s)).particles
            = pre' ++ ([a] ++ rest) := by
          rw [updateParticleElement_particles, advanceAt_particles, hs, List.append_assoc]
        have h2pool : (updateParticleElement a (advanceAt dt a s)).particlePool
            = s.particlePool := by
          rw [updateParticleElement_particlePool, advanceAt_particlePool]
        have h2data : (updateParticleElement a (advanceAt dt a s)).data
            = Function.update s.data a (advP dt s.config.lifetime (s.data a)) := by
          rw [updateParticleElement_data, advanceAt_data]
        have h2config : (updateParticleElement a (advanceAt dt a s)).config = s.config := rfl
        have h2w : (updateParticleElement a (advanceAt dt a s)).containerW = s.containerW := rfl
        have h2h : (updateParticleElement a (advanceAt dt a s)).containerH = s.containerH := rfl
        have h2dataeq : ∀ pid, pid ≠ a →
            (updateParticleElement a (advanceAt dt a s)).data pid = s.data pid := by
          intro pid hne
          rw [h2data, Function.update_noteq hne]
        have hsurv_eq : ∀ pid ∈ pre',
            surviveB (updateParticleElement a (advanceAt dt a s)) dt pid
              = surviveB s dt pid := by
          intro pid hpid
          exact surviveB_congr _ s dt pid (h2dataeq pid (fun he => ha_pre (he ▸ hpid)))
            h2config h2w h2h
        have hpost_eq : ∀ pid ∈ pre',
            postData (updateParticleElement a (advanceAt dt a s)) dt pid
              = postData s dt pid := by
          intro pid hpid
          exact postData_congr _ s dt pid (h2dataeq pid (fun he => ha_pre (he ▸ hpid)))
            h2config h2w h2h
        obtain ⟨ihp, ihpool, ihout, ihin, ihc, ihw, ihh⟩ :=
          ih ([a] ++ rest) (updateParticleElement a (advanceAt dt a s)) h2particles
            (nodup_shift hnd)
        have hgone' : gone s (advP dt s.config.lifetime (s.data a)) = false :=
          Bool.eq_false_iff.mpr hgone
        have hsurva : surviveB s dt a = true := by
          unfold surviveB
          rw [hgone']
          rfl
        have hfc : pre'.filter (surviveB (updateParticleElement a (advanceAt dt a s)) dt)
            = pre'.filter (surviveB s dt) :=
          List.filter_congr hsurv_eq
        have hfcn :
            pre'.filter (fun pid => !surviveB (updateParticleElement a (advanceAt dt a s)) dt pid)
              = pre'.filter (fun pid => !surviveB s dt pid) :=
          List.filter_congr (by intro pid hpid; rw [hsurv_eq pid hpid])
        refine ⟨?_, ?_, ?_, ?_, ?_, ?_, ?_⟩
        · rw [ihp, hfc, List.filter_append]
          simp [hsurva]
        · rw [ihpool, h2pool, hfcn, List.filter_append]
          simp [hsurva]
        · intro pid hpid
          have hpid' : pid ∉ pre' := fun hc => hpid (List.mem_append_left _ hc)
          have hpa : pid ≠ a := fun he =>
            hpid (List.mem_append_right _ (he ▸ List.mem_singleton.mpr rfl))
          rw [ihout pid hpid', h2dataeq pid hpa]
        · intro pid hpid
          rcases List.mem_append.mp hpid with hpl | hpr
          · rw [ihin pid hpl, hpost_eq pid hpl]
          · have hpa : pid = a := List.mem_singleton.mp hpr
            subst hpa
            rw [ihout pid ha_pre, h2data, Function.update_same]
            unfold postData
            rw [if_neg hgone]
        · rw [ihc, h2config]
        · rw [ihw, h2w]
        · rw [ihh, h2h]

lemma updateParticles_spec (dt : ℚ) (s : ParticleSystem) (hnd : s.particles.Nodup) :
    (updateParticles dt s).particles = s.particles.filter (surviveB s dt) ∧
    (updateParticles dt s).particlePool
      = s.particlePool ++ (s.particles.filter (fun pid => !surviveB s dt pid)).reverse ∧
    (∀ pid, pid ∉ s.particles → (updateParticles dt s).data pid = s.data pid) ∧
    (∀ pid ∈ s.particles, (updateParticles dt s).data pid = postData s dt pid) := by
  have h := updateLoop_spec dt s.particles [] s (by simp) (by simpa using hnd)
  refine ⟨?_, ?_, h.2.2.1, h.2.2.2.1⟩
  · simpa [updateParticles] using h.1
  · simpa [updateParticles] using h.2.1

lemma postData_x (s : ParticleSystem) (dt : ℚ) (pid : Nat) :
    (postData s dt pid).x = (s.data pid).x + (s.data pid).vx * dt := by
  unfold postData
  split <;> rfl

lemma postData_y (s : ParticleSystem) (dt : ℚ) (pid : Nat) :
    (postData s dt pid).y = (s.data pid).y + (s.data pid).vy * dt := by
  unfold postData
  split <;> rfl

lemma postData_opacity (s : ParticleSystem) (dt : ℚ) (pid : Nat) :
    (postData s dt pid).opacity = (s.data pid).opacity - dt / s.config.lifetime := by
  unfold postData
  split <;> rfl

/-- Claim C7 (amended): on each internally driven frame update, every active
particle advances by its velocity times the frame delta `animDt`, which is
the elapsed time since the previous frame in seconds CAPPED AT 0.016 (and 0
on the very first frame); its opacity decreases by `animDt / lifetime`; and a
particle whose advanced record has opacity at or below zero or position
outside the container box padded by 50 is moved to the free pool within the
same update, while all others remain active. -/
theorem c7_frame_update (s : ParticleSystem) (t : ℚ)
    (hrun : s.isRunning = true) (hnd : s.particles.Nodup) :
    (∀ pid ∈ s.particles,
        ((animate t s).data pid).x = (s.data pid).x + (s.data pid).vx * animDt t s ∧
        ((animate t s).data pid).y = (s.data pid).y + (s.data pid).vy * animDt t s ∧
        ((animate t s).data pid).opacity
          = (s.data pid).opacity - animDt t s / s.config.lifetime) ∧
    (∀ pid ∈ s.particles,
        (gone s (advP (animDt t s) s.config.lifetime (s.data pid)) = true →
          pid ∈ (animate t s).particlePool ∧ pid ∉ (animate t s).particles) ∧
        (gone s (advP (animDt t s) s.config.lifetime (s.data pid)) = false →
          pid ∈ (animate t s).particles)) ∧
    animDt t s = min ((t - (if s.lastTime = 0 then t else s.lastTime)) / 1000) (16/1000) := by
  have hae : animate t s
      = afterFrameRequest (updateParticles (animDt t s) { s with lastTime := t }) := by
    unfold animate
    exact if_neg (by simp [hrun])
  have hnd2 : ({ s with lastTime := t } : ParticleSystem).particles.Nodup := hnd
  have hspec := updateParticles_spec (animDt t s) { s with lastTime := t } hnd2
  refine ⟨?_, ?_, rfl⟩
  · intro pid hpid
    have hd := hspec.2.2.2 pid hpid
    rw [hae]
    show ((updateParticles (animDt t s) { s with lastTime := t }).data pid).x = _ ∧
      ((updateParticles (animDt t s) { s with lastTime := t }).data pid).y = _ ∧
      ((updateParticles (animDt t s) { s with lastTime := t }).data pid).opacity = _
    rw [hd, postData_x, postData_y, postData_opacity]
    exact ⟨rfl, rfl, rfl⟩
  · intro pid hpid
    have hsurv : surviveB { s with lastTime := t } (animDt t s) pid
        = surviveB s (animDt t s) pid := rfl
    constructor
    · intro hg
      have hsv : surviveB s (animDt t s) pid = false := by
        unfold surviveB
        rw [show gone s (advP (animDt t s) s.config.lifetime (s.data pid)) = true from hg]
        rfl
      constructor
      · rw [hae]
        show pid ∈ (updateParticles (animDt t s) { s with lastTime := t }).particlePool
        rw [hspec.2.1]
        refine List.mem_append_right _ ?_
        rw [List.mem_reverse, List.mem_filter]
        exact ⟨hpid, by rw [hsurv, hsv]; rfl⟩
      · rw [hae]
        show pid ∉ (updateParticles (animDt t s) { s with lastTime := t }).particles
        rw [hspec.1]
        intro hmem
        have := (List.mem_filter.mp hmem).2
        rw [hsurv, hsv] at this
        exact Bool.false_ne_true this
    · intro hg
      have hsv : surviveB s (animDt t s) pid = true := by
        unfold surviveB
        rw [show gone s (advP (animDt t s) s.config.lifetime (s.data pid)) = false from hg]
        rfl
      rw [hae]
      show pid ∈ (updateParticles (animDt t s) { s with lastTime := t }).particles
      rw [hspec.1]
      rw [List.mem_filter]
      exact ⟨hpid, by rw [hsurv, hsv]⟩

set_option maxRecDepth 4000

/-- A one-particle config used for concrete executions. -/
def miniConfig : ParticleSystemConfig :=
  { count := 1
    colors := [("rgba(154, 205, 50, 0.4)")]
    sizeMin := 2
    sizeMax := 4
    speedMin := 1/2
    speedMax := 3/2
    opacityMin := 3/10
    opacityMax := 4/5
    lifetime := 8000 }

/-- A concrete running system that has already rendered one frame at time
1000ms, with one active particle at the origin moving right at unit speed. -/
def psLag : ParticleSystem :=
  fireFrame 1000 (spawnParticle 0 0 1 0 0 0 (start (initPS miniConfig 10000 10000)))

/-- Witness for C7: the amended theorem applied to the concrete running
system `psLag` at frame time 2000ms. -/
theorem c7_frame_update_witness :
    psLag.isRunning = true ∧ psLag.particles.Nodup ∧
    animDt 2000 psLag
      = min ((2000 - (if psLag.lastTime = 0 then 2000 else psLag.lastTime)) / 1000) (16/1000) :=
  ⟨by with_unfolding_all decide, by with_unfolding_all decide,
    (c7_frame_update psLag 2000 (by with_unfolding_all decide)
      (by with_unfolding_all decide)).2.2⟩

/-- Counterexample to claim C7 as stated: the claim says the position
advances by velocity times the elapsed time since the previous frame, but
the source caps the frame delta at 0.016 seconds.  Here 1 second (frames at
1000ms and 2000ms) elapses for a particle with unit horizontal velocity, so
the claim predicts x = 1, while the code moves it to x = 0.016 = 2/125. -/
theorem c7_counterexample :
    psLag.lastTime = 1000 ∧
    (psLag.data 0).x = 0 ∧ (psLag.data 0).vx = 1 ∧ 0 ∈ psLag.particles ∧
    ((fireFrame 2000 psLag).data 0).x = 2/125 ∧
    ¬ ((fireFrame 2000 psLag).data 0).x
        = (psLag.data 0).x + (psLag.data 0).vx * ((2000 - psLag.lastTime) / 1000) := by
  refine ⟨by with_unfolding_all decide, by with_unfolding_all decide,
    by with_unfolding_all decide, by with_unfolding_all decide,
    by with_unfolding_all decide, by with_unfolding_all decide⟩

/-! ## Cleanup and frame-schedule cancellation (claim C6) -/

/-- Consistency of the stored `animationFrame` handle with the host
scheduler: whenever a frame callback is pending, its handle is the one
stored in `animationFrame`.  This holds in every state the system actually
reaches, because the handle of each `requestAnimationFrame` call is stored
immediately. -/
def SchedOK (s : ParticleSystem) : Prop :=
  s.pending = none ∨ (s.animationFrame ≠ 0 ∧ s.pending = some s.animationFrame)

lemma returnParticle_misc (pid : Nat) (s : ParticleSystem) :
    (returnParticle pid s).pending = s.pending ∧
    (returnParticle pid s).isRunning = s.isRunning ∧
    (returnParticle pid s).animationFrame = s.animationFrame := by
  unfold returnParticle returnParticleMark
  split <;> exact ⟨rfl, rfl, rfl⟩

lemma returnAllLoop_misc : ∀ (n : Nat) (s : ParticleSystem),
    (returnAllLoop n s).pending = s.pending ∧
    (returnAllLoop n s).isRunning = s.isRunning ∧
    (returnAllLoop n s).animationFrame = s.animationFrame := by
  intro n
  induction n with
  | zero => intro s; exact ⟨rfl, rfl, rfl⟩
  | succ n ih =>
      intro s
      unfold returnAllLoop
      cases hh : s.particles.head? with
      | none => exact ⟨rfl, rfl, rfl⟩
      | some pid =>
          have h1 := returnParticle_misc pid s
          have h2 := ih (returnParticle pid s)
          exact ⟨h2.1.trans h1.1, h2.2.1.trans h1.2.1, h2.2.2.trans h1.2.2⟩

lemma removeElemStep_misc (u : ParticleSystem) (q : Nat) :
    (removeElemStep u q).pending = u.pending ∧
    (removeElemStep u q).isRunning = u.isRunning ∧
    (removeElemStep u q).animationFrame = u.animationFrame ∧
    (removeElemStep u q).particles = u.particles ∧
    (removeElemStep u q).particlePool = u.particlePool := by
  unfold removeElemStep
  split <;> exact ⟨rfl, rfl, rfl, rfl, rfl⟩

lemma removeElems_misc : ∀ (pids : List Nat) (s : ParticleSystem),
    (removeElems pids s).pending = s.pending ∧
    (removeElems pids s).isRunning = s.isRunning ∧
    (removeElems pids s).animationFrame = s.animationFrame ∧
    (removeElems pids s).particles = s.particles ∧
    (removeElems pids s).particlePool = s.particlePool := by
  intro pids
  induction pids with
  | nil => intro s; exact ⟨rfl, rfl, rfl, rfl, rfl⟩
  | cons q rest ih =>
      intro s
      have h1 := removeElemStep_misc s q
      have h2 := ih (removeElemStep s q)
      exact ⟨h2.1.trans h1.1, h2.2.1.trans h1.2.1, h2.2.2.1.trans h1.2.2.1,
        h2.2.2.2.1.trans h1.2.2.2.1, h2.2.2.2.2.trans h1.2.2.2.2⟩

lemma removeElemStep_inDOM_false (u : ParticleSystem) (pid q : Nat)
    (h : (u.elems pid).inDOM = false) : ((removeElemStep u q).elems pid).inDOM = false := by
  unfold removeElemStep
  split
  · dsimp only
    by_cases hpq : pid = q
    · subst hpq
      rw [Function.update_same]
    · rw [Function.update_noteq hpq]
      exact h
  · exact h

lemma removeElemStep_inDOM_self (u : ParticleSystem) (q : Nat) :
    ((removeElemStep u q).elems q).inDOM = false := by
  unfold removeElemStep
  split
  · dsimp only
    rw [Function.update_same]
  · next h => exact Bool.eq_false_iff.mpr h

lemma removeElems_inDOM_mono : ∀ (pids : List Nat) (s : ParticleSystem) (pid : Nat),
    (s.elems pid).inDOM = false → ((removeElems pids s).elems pid).inDOM = false := by
  intro pids
  induction pids with
  | nil => intro s pid h; exact h
  | cons q rest ih =>
      intro s pid h
      exact ih (removeElemStep s q) pid (removeElemStep_inDOM_false s pid q h)

lemma removeElems_inDOM_of_mem : ∀ (pids : List Nat) (s : ParticleSystem) (pid : Nat),
    pid ∈ pids → ((removeElems pids s).elems pid).inDOM = false := by
  intro pids
  induction pids with
  | nil => intro s pid h; cases h
  | cons q rest ih =>
      intro s pid h
      rcases List.mem_cons.mp h with he | hr
      · subst he
        exact removeElems_inDOM_mono rest (removeElemStep s pid) pid
          (removeElemStep_inDOM_self s pid)
      · exact ih (removeElemStep s q) pid hr

lemma stop_spec (s : ParticleSystem) (h : SchedOK s) :
    (stop s).pending = none ∧ (stop s).isRunning = false ∧ (stop s).animationFrame = 0 := by
  unfold stop cancelFrame
  by_cases h0 : s.animationFrame ≠ 0
  · rw [if_pos h0]
    by_cases hp : s.pending = some s.animationFrame
    · rw [if_pos hp]
      exact ⟨rfl, rfl, rfl⟩
    · rw [if_neg hp]
      rcases h with hnone | ⟨hne, hsome⟩
      · exact ⟨hnone, rfl, rfl⟩
      · exact absurd hsome hp
  · rw [if_neg h0]
    push_neg at h0
    rcases h with hnone | ⟨hne, _⟩
    · exact ⟨hnone, rfl, h0⟩
    · exact absurd h0 hne

lemma returnParticle_particles_head (pid : Nat) (s : ParticleSystem)
    (hh : s.particles.head? = some pid) :
    (returnParticle pid s).particles = s.particles.tail := by
  unfold returnParticle
  have hmem : pid ∈ (returnParticleMark pid s).particles := by
    rw [returnParticleMark_particles]
    cases hl : s.particles with
    | nil => rw [hl] at hh; cases hh
    | cons q t =>
        rw [hl] at hh
        have hq : q = pid := by simpa using hh
        exact hq ▸ List.mem_cons_self _ _
  rw [if_pos hmem]
  show (s.particles).erase pid = s.particles.tail
  cases hl : s.particles with
  | nil => rw [hl] at hh; cases hh
  | cons q t =>
      rw [hl] at hh
      have hq : q = pid := by simpa using hh
      subst hq
      simp

lemma returnAllLoop_empties : ∀ (n : Nat) (s : ParticleSystem),
    s.particles.length = n → (returnAllLoop n s).particles = [] := by
  intro n
  induction n with
  | zero => intro s h; exact List.length_eq_zero.mp h
  | succ n ih =>
      intro s h
      unfold returnAllLoop
      cases hh : s.particles.head? with
      | none =>
          rw [List.head?_eq_none_iff] at hh
          rw [hh] at h
          simp at h
      | some pid =>
          apply ih
          rw [returnParticle_particles_head pid s hh, List.length_tail]
          omega

lemma reset_spec (s : ParticleSystem) (h : SchedOK s) :
    (reset s).pending = none ∧ (reset s).isRunning = false ∧
    (reset s).animationFrame = 0 ∧ (reset s).particles = [] := by
  have hs := stop_spec s h
  have hmisc := returnAllLoop_misc (stop s).particles.length (stop s)
  exact ⟨hmisc.1.trans hs.1, hmisc.2.1.trans hs.2.1, hmisc.2.2.trans hs.2.2,
    returnAllLoop_empties (stop s).particles.length (stop s) rfl⟩

lemma record_isRunning_id (c : ParticleSystem) (h : c.isRunning = false) :
    ({ c with isRunning := false } : ParticleSystem) = c := by
  cases c
  simp_all

lemma record_stop_id (c : ParticleSystem) (h : c.isRunning = false)
    (h0 : c.animationFrame = 0) :
    ({ c with isRunning := false, animationFrame := 0 } : ParticleSystem) = c := by
  cases c
  simp_all

lemma record_lists_id (c : ParticleSystem) (hp : c.particles = []) (hq : c.particlePool = []) :
    ({ c with particles := [], particlePool := [] } : ParticleSystem) = c := by
  cases c
  simp_all

/-- A state with nothing running, no stored frame handle and empty
collections is a fixed point of `cleanup`. -/
lemma cleanup_fix (c : ParticleSystem) (hrun : c.isRunning = false)
    (h0 : c.animationFrame = 0) (hp : c.particles = []) (hq : c.particlePool = []) :
    cleanup c = c := by
  have hstop : stop c = c := by
    unfold stop
    rw [h0, if_neg (by simp)]
    exact record_stop_id c hrun h0
  have hreset : reset c = c := by
    unfold reset
    rw [hstop, hp]
    rfl
  unfold cleanup
  rw [hreset, hp, hq]
  exact record_lists_id c hp hq

/-- Claim C6: after `cleanup()` returns, the pending frame schedule is
cancelled, the system is not running, and a frame callback fired afterwards
(whether via the host scheduler `fireFrame`, which finds nothing pending, or
a stale direct `animate` call) returns the state entirely unchanged — in
particular the DOM log is unchanged, so no DOM mutation happens and nothing
is re-scheduled.  All visual handles of both pooled and active particles are
detached from the DOM, both collections are emptied, and a second `cleanup`
(hence any number of them) leaves the system exactly as it is. -/
theorem c6_cleanup_is_final (s : ParticleSystem) (hs : SchedOK s) :
    (cleanup s).pending = none ∧
    (cleanup s).isRunning = false ∧
    (cleanup s).animationFrame = 0 ∧
    (∀ t, fireFrame t (cleanup s) = cleanup s) ∧
    (∀ t, animate t (cleanup s) = cleanup s) ∧
    (cleanup s).particles = [] ∧
    (cleanup s).particlePool = [] ∧
    (∀ pid, pid ∈ s.particlePool ∨ pid ∈ s.particles →
      ((cleanup s).elems pid).inDOM = false) ∧
    cleanup (cleanup s) = cleanup s := by
  have hr := reset_spec s hs
  have hm := removeElems_misc ((reset s).particlePool ++ (reset s).particles) (reset s)
  have hpend : (cleanup s).pending = none := by
    show (removeElems _ (reset s)).pending = none
    rw [hm.1]
    exact hr.1
  have hrun : (cleanup s).isRunning = false := by
    show (removeElems _ (reset s)).isRunning = false
    rw [hm.2.1]
    exact hr.2.1
  have hfrm : (cleanup s).animationFrame = 0 := by
    show (removeElems _ (reset s)).animationFrame = 0
    rw [hm.2.2.1]
    exact hr.2.2.1
  have hpart : (cleanup s).particles = [] := rfl
  have hpool : (cleanup s).particlePool = [] := rfl
  refine ⟨hpend, hrun, hfrm, ?_, ?_, hpart, hpool, ?_, ?_⟩
  · intro t
    unfold fireFrame
    rw [hpend]
  · intro t
    unfold animate
    rw [if_pos hrun]
  · intro pid hmem
    have hmem1 : pid ∈ s.particlePool ++ s.particles := by
      rcases hmem with h1 | h2
      · exact List.mem_append_left _ h1
      · exact List.mem_append_right _ h2
    have hmem2 : pid ∈ (reset s).particlePool ++ (reset s).particles :=
      (reset_perm s).mem_iff.mpr hmem1
    show ((removeElems _ (reset s)).elems pid).inDOM = false
    exact removeElems_inDOM_of_mem _ (reset s) pid hmem2
  · exact cleanup_fix (cleanup s) hrun hfrm hpart hpool

/-- A concrete running system (started hero-like system with one particle
slot). -/
def psRun : ParticleSystem := start (initPS miniConfig 10 10)

/-- Witness for C6: the concrete running system satisfies the scheduler
consistency hypothesis, and after `cleanup` nothing is pending and a second
`cleanup` is the identity. -/
theorem c6_cleanup_is_final_witness :
    SchedOK psRun ∧ (cleanup psRun).pending = none ∧
    cleanup (cleanup psRun) = cleanup psRun := by
  have hsched : SchedOK psRun := by
    unfold SchedOK
    with_unfolding_all decide
  exact ⟨hsched, (c6_cleanup_is_final psRun hsched).1,
    (c6_cleanup_is_final psRun hsched).2.2.2.2.2.2.2.2⟩

/-! ## Animation controller (lib/animationController.ts)

The controller is embedded with the same explicit-store technique.  Each
registered `SectionAnimation` object is identified by a numeric handle; the
`animStatus` store records the externally visible status of each animation
object (running after `start()`, paused after `pause()`, cleaned after
`cleanup()`), and every such method call is also appended to the event list
together with every `console.warn`.  The two nested objects of the
controller state (`performanceMetrics` and `visibleSections`) are mutable JS
objects held by reference: the `AnimationState` record stores references
(`metricsRef`, `visibleRef`) into the `metricsHeap` / `setHeap` stores, so
the shallow copy `{ ...this.state }` of `getState` copies the references,
exactly as in the source. -/

/-- Externally visible status of a `SectionAnimation` object. -/
inductive AnimStatus where
  | running
  | paused
  | cleaned
deriving DecidableEq

/-- Observable controller events: `console.warn` calls and the lifecycle
methods invoked on section animations. -/
inductive CEvent where
  | warn (msg : String)
  | startCall (h : Nat)
  | pauseCall (h : Nat)
  | cleanupCall (h : Nat)
deriving DecidableEq

/-- The `PerformanceMetrics` record (interface `PerformanceMetrics`).
`memoryUsage` is in MB, as stored by the source. -/
structure PerfMetrics where
  frameRate : ℚ
  memoryUsage : ℚ
  animationCount : Nat
  lastFrameTime : ℚ
deriving DecidableEq

/-- The `AnimationState` object (interface `AnimationState`): scalar fields
are stored directly; the two nested mutable objects are stored as references
into the controller heaps. -/
structure AnimationState where
  isActive : Bool
  currentSection : String
  metricsRef : Nat
  reducedMotionEnabled : Bool
  visibleRef : Nat
deriving DecidableEq

/-- State of the `AnimationController` singleton together with its
collaborators: the heaps backing the nested state objects, the status store
of the animation objects, the DOM (`id → classList`), and the event log. -/
@[ext] structure AnimationController where
  animations : List (String × Nat)
  state : AnimationState
  metricsHeap : Nat → PerfMetrics
  setHeap : Nat → List String
  animStatus : Nat → AnimStatus
  observer : Bool
  performanceMonitorId : Option Nat
  dom : String → Option (List String)
  events : List CEvent

/-- JS `Map.get` on the insertion-ordered association list. -/
def mapGet : List (String × Nat) → String → Option Nat
  | [], _ => none
  | p :: rest, id => if p.1 == id then some p.2 else mapGet rest id

/-- JS `Map.set`: replace in place when the key exists, else append. -/
def mapSet : List (String × Nat) → String → Nat → List (String × Nat)
  | [], id, h => [(id, h)]
  | p :: rest, id, h => if p.1 == id then (id, h) :: rest else p :: mapSet rest id h

/-- JS `Map.delete`. -/
def mapDelete : List (String × Nat) → String → List (String × Nat)
  | [], _ => []
  | p :: rest, id => if p.1 == id then rest else p :: mapDelete rest id

/-- JS insertion-ordered `Set.add`. -/
def setAdd (l : List String) (id : String) : List String :=
  if id ∈ l then l else l ++ [id]

/-- JS `Set.delete`. -/
def setDelete (l : List String) (id : String) : List String :=
  l.filter (fun x => !(x == id))

/-- Read `this.state.performanceMetrics` (dereference the metrics ref). -/
def AnimationController.metrics (c : AnimationController) : PerfMetrics :=
  c.metricsHeap c.state.metricsRef

/-- Read `this.state.visibleSections` (dereference the set ref). -/
def AnimationController.visible (c : AnimationController) : List String :=
  c.setHeap c.state.visibleRef

/-- Mutate the metrics object in place (through the reference held by
`this.state`). -/
def writeMetrics (c : AnimationController) (m : PerfMetrics) : AnimationController :=
  { c with metricsHeap := Function.update c.metricsHeap c.state.metricsRef m }

/-- Mutate the visible-sections set object in place (through the reference
held by `this.state`). -/
def writeVisible (c : AnimationController) (l : List String) : AnimationController :=
  { c with setHeap := Function.update c.setHeap c.state.visibleRef l }

/-- Mutate the set object stored at an arbitrary reference `r` — this models
external code writing through a reference it obtained (for instance from a
`getState` snapshot). -/
def writeVisibleAt (c : AnimationController) (r : Nat) (l : List String) : AnimationController :=
  { c with setHeap := Function.update c.setHeap r l }

/-- Invoke `animation.start()` on handle `h`. -/
def callStart (h : Nat) (c : AnimationController) : AnimationController :=
  { c with
    animStatus := Function.update c.animStatus h AnimStatus.running
    events := c.events ++ [CEvent.startCall h] }

/-- Invoke `animation.pause()` on handle `h`. -/
def callPause (h : Nat) (c : AnimationController) : AnimationController :=
  { c with
    animStatus := Function.update c.animStatus h AnimStatus.paused
    events := c.events ++ [CEvent.pauseCall h] }

/-- Invoke `animation.cleanup()` on handle `h`. -/
def callCleanup (h : Nat) (c : AnimationController) : AnimationController :=
  { c with
    animStatus := Function.update c.animStatus h AnimStatus.cleaned
    events := c.events ++ [CEvent.cleanupCall h] }

/-- Emit a `console.warn`. -/
def warnEvent (msg : String) (c : AnimationController) : AnimationController :=
  { c with events := c.events ++ [CEvent.warn msg] }

/-- `this.state.performanceMetrics.animationCount = this.animations.size`. -/
def refreshCount (c : AnimationController) : AnimationController :=
  writeMetrics c { c.metrics with animationCount := c.animations.length }

/-- `registerSection(sectionId, animation)`: store the animation under the
id and refresh `performanceMetrics.animationCount`. -/
def registerSection (id : String) (h : Nat) (c : AnimationController) : AnimationController :=
  refreshCount { c with animations := mapSet c.animations id h }

/-- `this.animations.delete(sectionId)`. -/
def deleteAnim (id : String) (c : AnimationController) : AnimationController :=
  { c with animations := mapDelete c.animations id }

/-- `this.state.visibleSections.delete(sectionId)`. -/
def dropVisible (id : String) (c : AnimationController) : AnimationController :=
  writeVisible c (setDelete c.visible id)

/-- `this.state.visibleSections.add(sectionId)`. -/
def addVisible (id : String) (c : AnimationController) : AnimationController :=
  writeVisible c (setAdd c.visible id)

/-- `this.state.currentSection = sectionId`. -/
def setCurrent (id : String) (c : AnimationController) : AnimationController :=
  { c with state := { c.state with currentSection := id } }

/-- `unregisterSection(sectionId)`: when registered, invoke `cleanup()` on
the animation, delete the map entry and the visible-set entry, and refresh
`animationCount`; otherwise do nothing. -/
def unregisterSection (id : String) (c : AnimationController) : AnimationController :=
  match mapGet c.animations id with
  | none => c
  | some h => refreshCount (dropVisible id (deleteAnim id (callCleanup h c)))

/-- Handling of one `IntersectionObserverEntry` (the body of the `forEach`
of `handleIntersection`): an entry is the target section id plus its
`isIntersecting` flag.  Unregistered ids are skipped entirely.  The
reduced-motion and active flags are read after the visible-set and
current-section writes, which do not change them, so the test reads them
from `c`. -/
def handleEntry (c : AnimationController) (e : String × Bool) : AnimationController :=
  match mapGet c.animations e.1 with
  | none => c
  | some h =>
      if e.2 then
        if !c.state.reducedMotionEnabled && c.state.isActive then
          callStart h (setCurrent e.1 (addVisible e.1 c))
        else setCurrent e.1 (addVisible e.1 c)
      else
        callPause h (dropVisible e.1 c)

/-- `handleIntersection(entries)`. -/
def handleIntersection (entries : List (String × Bool)) (c : AnimationController) :
    AnimationController :=
  entries.foldl handleEntry c

/-- `getState()`: `return { ...this.state }` — a shallow copy of the state
object.  Scalar fields are copied; the references to the nested
`performanceMetrics` and `visibleSections` objects are copied as
references. -/
def getState (c : AnimationController) : AnimationState :=
  c.state

/-- `animations.forEach(animation => animation.pause())`. -/
def pauseAll (c : AnimationController) : AnimationController :=
  c.animations.foldl (fun acc p => callPause p.2 acc) c

/-- `visibleSections.forEach(...)`: start the animation of each visible
section that is registered. -/
def startVisible (c : AnimationController) : AnimationController :=
  c.visible.foldl
    (fun acc id =>
      match mapGet acc.animations id with
      | some h => callStart h acc
      | none => acc)
    c

/-- `this.state.isActive = active`. -/
def setActiveFlag (b : Bool) (c : AnimationController) : AnimationController :=
  { c with state := { c.state with isActive := b } }

/-- `setActive(active)`: store the flag; on false pause all animations, on
true (unless reduced motion) start the animations of visible sections.  The
reduced-motion flag is unchanged by the isActive write, so the test reads it
from `c`. -/
def setActive (active : Bool) (c : AnimationController) : AnimationController :=
  if !active then pauseAll (setActiveFlag active c)
  else if !c.state.reducedMotionEnabled then startVisible (setActiveFlag active c)
  else setActiveFlag active c

/-- `this.state.reducedMotionEnabled = e.matches`. -/
def setRMFlag (m : Bool) (c : AnimationController) : AnimationController :=
  { c with state := { c.state with reducedMotionEnabled := m } }

/-- The `handleChange` listener of `setupReducedMotionListener`: store the
new preference; when it turns on pause all animations, when it turns off
start the animations of visible sections provided the global flag is on
(unchanged by the reduced-motion write, so read from `c`). -/
def reducedMotionChange (m : Bool) (c : AnimationController) : AnimationController :=
  if m then pauseAll (setRMFlag m c)
  else if c.state.isActive then startVisible (setRMFlag m c)
  else setRMFlag m c

/-- `frameRateThreshold` of the controller. -/
def frameRateThreshold : ℚ := 30

/-- `memoryThreshold` of the controller (MB). -/
def memoryThreshold : ℚ := 50

/-- `handlePerformanceDegradation(reason)`: always warn; additionally, below
15fps disable all animations globally and warn again.  The frame-rate test
reads the stored metrics, unchanged by the warn, so it reads from `c`. -/
def handlePerformanceDegradation (reason : String) (c : AnimationController) :
    AnimationController :=
  if c.metrics.frameRate < 15 then
    warnEvent ("Animations disabled due to severe performance issues")
      (setActive false (warnEvent ("Performance degradation detected: " ++ reason) c))
  else warnEvent ("Performance degradation detected: " ++ reason) c

/-- The frame-rate computation of the `monitor` callback: `frameRate = 1000
/ deltaTime` and `lastFrameTime = currentTime`. -/
def recordFrameRate (currentTime : ℚ) (c : AnimationController) : AnimationController :=
  writeMetrics c
    { c.metrics with
      frameRate := 1000 / (currentTime - c.metrics.lastFrameTime)
      lastFrameTime := currentTime }

/-- The memory probe of the `monitor` callback: the `mem` argument is the
measured `usedJSHeapSize` in MB, or `none` when the platform has no
`performance.memory`. -/
def recordMemory (mem : Option ℚ) (c : AnimationController) : AnimationController :=
  match mem with
  | some mb => writeMetrics c { c.metrics with memoryUsage := mb }
  | none => c

/-- The low-frame-rate check of the `monitor` callback. -/
def checkFrameRate (c : AnimationController) : AnimationController :=
  if c.metrics.frameRate < frameRateThreshold then
    handlePerformanceDegradation ("low_framerate") c
  else c

/-- The high-memory check of the `monitor` callback. -/
def checkMemory (c : AnimationController) : AnimationController :=
  if c.metrics.memoryUsage > memoryThreshold then
    handlePerformanceDegradation ("high_memory") c
  else c

/-- Re-request of the next monitor frame. -/
def requestMonitorFrame (c : AnimationController) : AnimationController :=
  { c with performanceMonitorId := some (c.performanceMonitorId.getD 0 + 1) }

/-- One execution of the `monitor` frame callback of
`startPerformanceMonitoring` at time `currentTime`: compute the frame rate
from the elapsed time, optionally refresh the memory usage, run the
degradation checks, and re-request the next monitor frame. -/
def monitorStep (currentTime : ℚ) (mem : Option ℚ) (c : AnimationController) :
    AnimationController :=
  requestMonitorFrame (checkMemory (checkFrameRate (recordMemory mem (recordFrameRate currentTime c))))

/-- `setupIntersectionObserver()`: when the platform has no
`IntersectionObserver`, warn and return without creating an observer;
otherwise create the observer (and observe the sections — an environment
effect). -/
def setupIntersectionObserver (supported : Bool) (c : AnimationController) :
    AnimationController :=
  if !supported then
    warnEvent ("IntersectionObserver not supported, animations will run continuously") c
  else { c with observer := true }

/-- The private constructor of the singleton: the initial `AnimationState`
with both nested objects freshly allocated (at references 0), initial
metrics `{ frameRate: 60, memoryUsage: 0, animationCount: 0, lastFrameTime:
performance.now() }`, and the reduced-motion media query result `rm`. -/
def newController (t0 : ℚ) (rm : Bool) (dom0 : String → Option (List String)) :
    AnimationController :=
  { animations := []
    state :=
      { isActive := true
        currentSection := ("")
        metricsRef := 0
        reducedMotionEnabled := rm
        visibleRef := 0 }
    metricsHeap := fun _ =>
      { frameRate := 60, memoryUsage := 0, animationCount := 0, lastFrameTime := t0 }
    setHeap := fun _ => []
    animStatus := fun _ => AnimStatus.paused
    observer := false
    performanceMonitorId := none
    dom := dom0
    events := [] }

/-- `init()`: set up the intersection observer, start performance
monitoring (schedule the first monitor frame), and install the
reduced-motion listener (no state change). -/
def initController (supported : Bool) (t0 : ℚ) (rm : Bool)
    (dom0 : String → Option (List String)) : AnimationController :=
  { setupIntersectionObserver supported (newController t0 rm dom0) with
    performanceMonitorId := some 1 }

/-- `animations.forEach(animation => animation.cleanup())`. -/
def cleanupAll (c : AnimationController) : AnimationController :=
  c.animations.foldl (fun acc p => callCleanup p.2 acc) c

/-- `destroy()`: disconnect the observer, cancel the monitor frame, clean up
every animation, and clear the map and the visible set. -/
def destroy (c : AnimationController) : AnimationController :=
  writeVisible
    { cleanupAll { c with observer := false, performanceMonitorId := none } with
      animations := [] } []

/-- The static fallback class table of `AnimationErrorHandler`, with the
`bg-dark-bg` default. -/
def fallbackClassFor (id : String) : String :=
  if id == ("hero") then ("bg-gradient-to-br from-rich-black via-graphite to-dark-bg")
  else if id == ("challenge") then ("bg-gradient-to-b from-rich-black to-dark-bg")
  else if id == ("framework") then ("bg-gradient-to-br from-petrol-ink/20 to-dark-bg")
  else if id == ("impact") then ("bg-gradient-to-r from-dark-bg via-petrol-ink/10 to-dark-bg")
  else if id == ("engagement") then ("bg-gradient-to-br from-dark-bg to-petrol-ink/20")
  else if id == ("footer") then ("bg-gradient-to-t from-petrol-ink to-dark-bg")
  else ("bg-dark-bg")

/-- The token-append effect of DOM `classList.add`, with token validation
elided: the real `DOMTokenList.add` rejects an empty or
whitespace-containing token with an exception, and every entry of the
fallback table below contains spaces.  This simplified total version backs
only the claims that do not observe the DOM or the error path (start/pause
calls, state references); `classListAddDom` below is the faithful fallible
embedding used by the lifecycle and error-handler claims. -/
def classListAdd (cls : String) (l : List String) : List String :=
  if cls ∈ l then l else l ++ [cls]

/-- `AnimationErrorHandler.applyStaticFallback(sectionId)` with the
validation of `classList.add` elided (see `classListAdd`): no-op when
`getElementById` finds nothing, else add the fallback class to the element.
`applyStaticFallbackDom` below is the faithful fallible version, in which
the add throws whenever the element exists and the fallback class is a
space-containing multi-class string. -/
def applyStaticFallback (id : String) (c : AnimationController) : AnimationController :=
  match c.dom id with
  | none => c
  | some classes =>
      { c with dom := Function.update c.dom id (some (classListAdd (fallbackClassFor id) classes)) }

/-- `AnimationErrorHandler.handleAnimationError(error, sectionId)` with the
validation of `classList.add` elided (see `classListAdd`): warn, apply the
static fallback, and unregister the section from the controller singleton.
`handleAnimationErrorDom` below is the faithful fallible version, in which
the exception thrown while applying the fallback escapes before
`unregisterSection` runs; the two versions emit the same start/pause events
(none) and touch the same state references, so the claims stated over this
version are unaffected by the difference. -/
def handleAnimationError (id : String) (c : AnimationController) : AnimationController :=
  unregisterSection id (applyStaticFallback id (warnEvent ("Animation error in " ++ id) c))

/-- One public operation on the controller, as named in the claims:
registration, unregistration, an intersection-observer callback, the global
enable flag, a reduced-motion preference change, and the error handler. -/
inductive COp where
  | register (id : String) (h : Nat)
  | unregister (id : String)
  | intersect (entries : List (String × Bool))
  | activate (b : Bool)
  | rmSet (m : Bool)
  | animError (id : String)

/-- Apply one operation. -/
def applyOp (c : AnimationController) : COp → AnimationController
  | COp.register id h => registerSection id h c
  | COp.unregister id => unregisterSection id c
  | COp.intersect entries => handleIntersection entries c
  | COp.activate b => setActive b c
  | COp.rmSet m => reducedMotionChange m c
  | COp.animError id => handleAnimationError id c

/-- Run a sequence of operations. -/
def run (c : AnimationController) (ops : List COp) : AnimationController :=
  ops.foldl applyOp c

/-- The events newly emitted by one operation (the event log is
append-only). -/
def newEvents (op : COp) (c : AnimationController) : List CEvent :=
  (applyOp c op).events.drop c.events.length

/-! ## Basic lemmas about the controller -/

@[simp] lemma callStart_animations (h : Nat) (c : AnimationController) :
    (callStart h c).animations = c.animations := rfl

@[simp] lemma callPause_animations (h : Nat) (c : AnimationController) :
    (callPause h c).animations = c.animations := rfl

@[simp] lemma callCleanup_animations (h : Nat) (c : AnimationController) :
    (callCleanup h c).animations = c.animations := rfl

@[simp] lemma warnEvent_animations (msg : String) (c : AnimationController) :
    (warnEvent msg c).animations = c.animations := rfl

@[simp] lemma callStart_state (h : Nat) (c : AnimationController) :
    (callStart h c).state = c.state := rfl

@[simp] lemma callPause_state (h : Nat) (c : AnimationController) :
    (callPause h c).state = c.state := rfl

@[simp] lemma callCleanup_state (h : Nat) (c : AnimationController) :
    (callCleanup h c).state = c.state := rfl

@[simp] lemma warnEvent_state (msg : String) (c : AnimationController) :
    (warnEvent msg c).state = c.state := rfl

@[simp] lemma callStart_events (h : Nat) (c : AnimationController) :
    (callStart h c).events = c.events ++ [CEvent.startCall h] := rfl

@[simp] lemma callPause_events (h : Nat) (c : AnimationController) :
    (callPause h c).events = c.events ++ [CEvent.pauseCall h] := rfl

@[simp] lemma callCleanup_events (h : Nat) (c : AnimationController) :
    (callCleanup h c).events = c.events ++ [CEvent.cleanupCall h] := rfl

@[simp] lemma warnEvent_events (msg : String) (c : AnimationController) :
    (warnEvent msg c).events = c.events ++ [CEvent.warn msg] := rfl

@[simp] lemma writeMetrics_metrics (c : AnimationController) (m : PerfMetrics) :
    (writeMetrics c m).metrics = m := by
  unfold writeMetrics AnimationController.metrics
  exact Function.update_same _ _ _

@[simp] lemma writeVisible_visible (c : AnimationController) (l : List String) :
    (writeVisible c l).visible = l := by
  unfold writeVisible AnimationController.visible
  exact Function.update_same _ _ _

@[simp] lemma writeMetrics_visible (c : AnimationController) (m : PerfMetrics) :
    (writeMetrics c m).visible = c.visible := rfl

@[simp] lemma writeVisible_metrics (c : AnimationController) (l : List String) :
    (writeVisible c l).metrics = c.metrics := rfl

@[simp] lemma writeMetrics_animations (c : AnimationController) (m : PerfMetrics) :
    (writeMetrics c m).animations = c.animations := rfl

@[simp] lemma writeVisible_animations (c : AnimationController) (l : List String) :
    (writeVisible c l).animations = c.animations := rfl

@[simp] lemma writeMetrics_state (c : AnimationController) (m : PerfMetrics) :
    (writeMetrics c m).state = c.state := rfl

@[simp] lemma writeVisible_state (c : AnimationController) (l : List String) :
    (writeVisible c l).state = c.state := rfl

@[simp] lemma writeMetrics_events (c : AnimationController) (m : PerfMetrics) :
    (writeMetrics c m).events = c.events := rfl

@[simp] lemma writeVisible_events (c : AnimationController) (l : List String) :
    (writeVisible c l).events = c.events := rfl

@[simp] lemma writeMetrics_animStatus (c : AnimationController) (m : PerfMetrics) :
    (writeMetrics c m).animStatus = c.animStatus := rfl

@[simp] lemma writeVisible_animStatus (c : AnimationController) (l : List String) :
    (writeVisible c l).animStatus = c.animStatus := rfl

@[simp] lemma callStart_metrics (h : Nat) (c : AnimationController) :
    (callStart h c).metrics = c.metrics := rfl

@[simp] lemma callPause_metrics (h : Nat) (c : AnimationController) :
    (callPause h c).metrics = c.metrics := rfl

@[simp] lemma callCleanup_metrics (h : Nat) (c : AnimationController) :
    (callCleanup h c).metrics = c.metrics := rfl

@[simp] lemma warnEvent_metrics (msg : String) (c : AnimationController) :
    (warnEvent msg c).metrics = c.metrics := rfl

@[simp] lemma callStart_visible (h : Nat) (c : AnimationController) :
    (callStart h c).visible = c.visible := rfl

@[simp] lemma callPause_visible (h : Nat) (c : AnimationController) :
    (callPause h c).visible = c.visible := rfl

@[simp] lemma callCleanup_visible (h : Nat) (c : AnimationController) :
    (callCleanup h c).visible = c.visible := rfl

@[simp] lemma warnEvent_visible (msg : String) (c : AnimationController) :
    (warnEvent msg c).visible = c.visible := rfl

@[simp] lemma setActiveFlag_animations (b : Bool) (c : AnimationController) :
    (setActiveFlag b c).animations = c.animations := rfl

@[simp] lemma setActiveFlag_animStatus (b : Bool) (c : AnimationController) :
    (setActiveFlag b c).animStatus = c.animStatus := rfl

@[simp] lemma setActiveFlag_events (b : Bool) (c : AnimationController) :
    (setActiveFlag b c).events = c.events := rfl

@[simp] lemma setActiveFlag_visible (b : Bool) (c : AnimationController) :
    (setActiveFlag b c).visible = c.visible := rfl

@[simp] lemma setActiveFlag_metrics (b : Bool) (c : AnimationController) :
    (setActiveFlag b c).metrics = c.metrics := rfl

@[simp] lemma setRMFlag_animations (m : Bool) (c : AnimationController) :
    (setRMFlag m c).animations = c.animations := rfl

@[simp] lemma setRMFlag_animStatus (m : Bool) (c : AnimationController) :
    (setRMFlag m c).animStatus = c.animStatus := rfl

@[simp] lemma setRMFlag_events (m : Bool) (c : AnimationController) :
    (setRMFlag m c).events = c.events := rfl

@[simp] lemma setRMFlag_visible (m : Bool) (c : AnimationController) :
    (setRMFlag m c).visible = c.visible := rfl

@[simp] lemma setCurrent_animations (id : String) (c : AnimationController) :
    (setCurrent id c).animations = c.animations := rfl

@[simp] lemma setCurrent_animStatus (id : String) (c : AnimationController) :
    (setCurrent id c).animStatus = c.animStatus := rfl

@[simp] lemma setCurrent_events (id : String) (c : AnimationController) :
    (setCurrent id c).events = c.events := rfl

@[simp] lemma addVisible_animations (id : String) (c : AnimationController) :
    (addVisible id c).animations = c.animations := rfl

@[simp] lemma addVisible_animStatus (id : String) (c : AnimationController) :
    (addVisible id c).animStatus = c.animStatus := rfl

@[simp] lemma addVisible_events (id : String) (c : AnimationController) :
    (addVisible id c).events = c.events := rfl

@[simp] lemma dropVisible_animations (id : String) (c : AnimationController) :
    (dropVisible id c).animations = c.animations := rfl

@[simp] lemma dropVisible_animStatus (id : String) (c : AnimationController) :
    (dropVisible id c).animStatus = c.animStatus := rfl

@[simp] lemma dropVisible_events (id : String) (c : AnimationController) :
    (dropVisible id c).events = c.events := rfl

@[simp] lemma refreshCount_animations (c : AnimationController) :
    (refreshCount c).animations = c.animations := rfl

@[simp] lemma refreshCount_animStatus (c : AnimationController) :
    (refreshCount c).animStatus = c.animStatus := rfl

@[simp] lemma refreshCount_events (c : AnimationController) :
    (refreshCount c).events = c.events := rfl

@[simp] lemma refreshCount_state (c : AnimationController) :
    (refreshCount c).state = c.state := rfl

@[simp] lemma deleteAnim_animStatus (id : String) (c : AnimationController) :
    (deleteAnim id c).animStatus = c.animStatus := rfl

@[simp] lemma deleteAnim_events (id : String) (c : AnimationController) :
    (deleteAnim id c).events = c.events := rfl

@[simp] lemma deleteAnim_animations (id : String) (c : AnimationController) :
    (deleteAnim id c).animations = mapDelete c.animations id := rfl

/-- Characterization of `animations.forEach(a => a.pause())`. -/
lemma pauseFold_eq (l : List (String × Nat)) (c : AnimationController) :
    l.foldl (fun acc p => callPause p.2 acc) c =
      { c with
        animStatus := fun h =>
          if h ∈ l.map Prod.snd then AnimStatus.paused else c.animStatus h
        events := c.events ++ l.map (fun p => CEvent.pauseCall p.2) } := by
  induction l generalizing c with
  | nil => simp
  | cons p l ih =>
      rw [List.foldl_cons, ih]
      apply AnimationController.ext <;> try rfl
      · funext h
        by_cases hmem : h ∈ l.map Prod.snd
        · simp [hmem, callPause]
        · by_cases hph : h = p.2
          · subst hph
            simp [hmem, callPause, Function.update_same]
          · simp [hmem, hph, callPause, Function.update_noteq hph]
      · simp

/-- Characterization of the `visibleSections.forEach` resume loop. -/
lemma startFold_eq (l : List String) (c : AnimationController) :
    l.foldl
      (fun acc id =>
        match mapGet acc.animations id with
        | some h => callStart h acc
        | none => acc) c =
      { c with
        animStatus := fun h =>
          if ∃ id, id ∈ l ∧ mapGet c.animations id = some h then AnimStatus.running
          else c.animStatus h
        events := c.events
          ++ (l.filterMap (fun id => mapGet c.animations id)).map CEvent.startCall } := by
  induction l generalizing c with
  | nil => simp
  | cons id l ih =>
      rw [List.foldl_cons]
      cases hmg : mapGet c.animations id with
      | none =>
          dsimp only
          rw [ih]
          have hcond : ∀ h, (∃ i, i ∈ id :: l ∧ mapGet c.animations i = some h)
              ↔ (∃ i, i ∈ l ∧ mapGet c.animations i = some h) := by
            intro h
            constructor
            · rintro ⟨i, hi, hm⟩
              rcases List.mem_cons.mp hi with he | ht
              · subst he
                rw [hmg] at hm
                cases hm
              · exact ⟨i, ht, hm⟩
            · rintro ⟨i, hi, hm⟩
              exact ⟨i, List.mem_cons_of_mem _ hi, hm⟩
          apply AnimationController.ext <;> try rfl
          · funext h
            dsimp only
            by_cases hc : ∃ i, i ∈ l ∧ mapGet c.animations i = some h
            · rw [if_pos hc, if_pos ((hcond h).mpr hc)]
            · rw [if_neg hc, if_neg (fun hx => hc ((hcond h).mp hx))]
          · simp [List.filterMap_cons, hmg]
      | some h0 =>
          dsimp only
          rw [ih]
          apply AnimationController.ext <;> try rfl
          · funext h
            dsimp only
            by_cases htail : ∃ i, i ∈ l ∧ mapGet (callStart h0 c).animations i = some h
            · rw [if_pos htail]
              have : ∃ i, i ∈ id :: l ∧ mapGet c.animations i = some h := by
                rcases htail with ⟨i, hi, hm⟩
                rw [callStart_animations] at hm
                exact ⟨i, List.mem_cons_of_mem _ hi, hm⟩
              rw [if_pos this]
            · rw [if_neg htail]
              by_cases hph : h = h0
              · subst hph
                have : ∃ i, i ∈ id :: l ∧ mapGet c.animations i = some h := by
                  exact ⟨id, List.mem_cons_self _ _, hmg⟩
                rw [if_pos this]
                show Function.update c.animStatus h AnimStatus.running h = AnimStatus.running
                exact Function.update_same _ _ _
              · have : ¬ ∃ i, i ∈ id :: l ∧ mapGet c.animations i = some h := by
                  rintro ⟨i, hi, hm⟩
                  rcases List.mem_cons.mp hi with he | ht
                  · subst he
                    rw [hmg] at hm
                    injection hm with hv
                    exact hph hv.symm
                  · exact htail ⟨i, ht, by rw [callStart_animations]; exact hm⟩
                rw [if_neg this]
                show Function.update c.animStatus h0 AnimStatus.running h = c.animStatus h
                exact Function.update_noteq hph _ _
          · simp [List.filterMap_cons, hmg]

/-! ## State projections of the operations -/

lemma pauseAll_state (c : AnimationController) : (pauseAll c).state = c.state := by
  rw [show pauseAll c = _ from pauseFold_eq c.animations c]

lemma startVisible_state (c : AnimationController) : (startVisible c).state = c.state := by
  rw [show startVisible c = _ from startFold_eq c.visible c]

lemma setActive_state (b : Bool) (c : AnimationController) :
    (setActive b c).state = { c.state with isActive := b } := by
  unfold setActive
  by_cases hb : !b
  · rw [if_pos hb, pauseAll_state]
    rfl
  · rw [if_neg hb]
    by_cases hrm : !c.state.reducedMotionEnabled
    · rw [if_pos hrm, startVisible_state]
      rfl
    · rw [if_neg hrm]
      rfl

lemma reducedMotionChange_state (m : Bool) (c : AnimationController) :
    (reducedMotionChange m c).state = { c.state with reducedMotionEnabled := m } := by
  unfold reducedMotionChange
  by_cases hm : m
  · rw [if_pos hm, pauseAll_state]
    rfl
  · rw [if_neg hm]
    by_cases ha : c.state.isActive
    · rw [if_pos ha, startVisible_state]
      rfl
    · rw [if_neg ha]
      rfl

lemma unregisterSection_state (id : String) (c : AnimationController) :
    (unregisterSection id c).state = c.state := by
  unfold unregisterSection
  cases mapGet c.animations id <;> rfl

lemma applyStaticFallback_state (id : String) (c : AnimationController) :
    (applyStaticFallback id c).state = c.state := by
  unfold applyStaticFallback
  cases c.dom id <;> rfl

lemma handleAnimationError_state (id : String) (c : AnimationController) :
    (handleAnimationError id c).state = c.state := by
  unfold handleAnimationError
  rw [unregisterSection_state, applyStaticFallback_state, warnEvent_state]

lemma handleEntry_refs (c : AnimationController) (e : String × Bool) :
    (handleEntry c e).state.visibleRef = c.state.visibleRef ∧
    (handleEntry c e).state.metricsRef = c.state.metricsRef := by
  unfold handleEntry
  cases mapGet c.animations e.1
  · exact ⟨rfl, rfl⟩
  · dsimp only
    split
    · split <;> exact ⟨rfl, rfl⟩
    · exact ⟨rfl, rfl⟩

lemma handleIntersection_refs : ∀ (entries : List (String × Bool)) (c : AnimationController),
    (handleIntersection entries c).state.visibleRef = c.state.visibleRef ∧
    (handleIntersection entries c).state.metricsRef = c.state.metricsRef := by
  intro entries
  induction entries with
  | nil => intro c; exact ⟨rfl, rfl⟩
  | cons e es ih =>
      intro c
      have h1 := handleEntry_refs c e
      have h2 := ih (handleEntry c e)
      exact ⟨h2.1.trans h1.1, h2.2.trans h1.2⟩

lemma applyOp_refs (c : AnimationController) (op : COp) :
    (applyOp c op).state.visibleRef = c.state.visibleRef ∧
    (applyOp c op).state.metricsRef = c.state.metricsRef := by
  cases op with
  | register id h => exact ⟨rfl, rfl⟩
  | unregister id =>
      show (unregisterSection id c).state.visibleRef = _ ∧
        (unregisterSection id c).state.metricsRef = _
      rw [unregisterSection_state id c]
      exact ⟨rfl, rfl⟩
  | intersect entries => exact handleIntersection_refs entries c
  | activate b =>
      show (setActive b c).state.visibleRef = _ ∧ (setActive b c).state.metricsRef = _
      rw [setActive_state b c]
      exact ⟨rfl, rfl⟩
  | rmSet m =>
      show (reducedMotionChange m c).state.visibleRef = _ ∧
        (reducedMotionChange m c).state.metricsRef = _
      rw [reducedMotionChange_state m c]
      exact ⟨rfl, rfl⟩
  | animError id =>
      show (handleAnimationError id c).state.visibleRef = _ ∧
        (handleAnimationError id c).state.metricsRef = _
      rw [handleAnimationError_state id c]
      exact ⟨rfl, rfl⟩

/-- Claim C9 (amended): `getState` returns a shallow copy of the state
object.  The scalar fields (`isActive`, `currentSection`,
`reducedMotionEnabled`) are copied by value at call time, but the nested
`performanceMetrics` and `visibleSections` objects are shared by reference:
the snapshot carries the very references the controller keeps using (and no
operation ever rebinds them), so later controller mutations are observable
through the snapshot, and writing through the references of the snapshot
changes the live controller state. -/
theorem c9_getState_shallow_copy (c : AnimationController) :
    (getState c).isActive = c.state.isActive ∧
    (getState c).currentSection = c.state.currentSection ∧
    (getState c).reducedMotionEnabled = c.state.reducedMotionEnabled ∧
    (getState c).visibleRef = c.state.visibleRef ∧
    (getState c).metricsRef = c.state.metricsRef ∧
    (∀ op, (applyOp c op).state.visibleRef = (getState c).visibleRef ∧
           (applyOp c op).state.metricsRef = (getState c).metricsRef) ∧
    (∀ op, (applyOp c op).setHeap (getState c).visibleRef = (applyOp c op).visible) ∧
    (∀ l, AnimationController.visible (writeVisibleAt c (getState c).visibleRef l) = l) := by
  refine ⟨rfl, rfl, rfl, rfl, rfl, applyOp_refs c, ?_, ?_⟩
  · intro op
    unfold AnimationController.visible
    rw [(applyOp_refs c op).1]
    rfl
  · intro l
    unfold AnimationController.visible writeVisibleAt
    exact Function.update_same _ _ _

/-- An empty DOM. -/
def domNone : String → Option (List String) := fun _ => none

/-- A freshly initialized controller (observer supported, construction time
1000ms, reduced motion off). -/
def ctrlBase : AnimationController := initController true 1000 false domNone

/-- The controller with the section `a` registered. -/
def c9base : AnimationController := registerSection ("a") 0 ctrlBase

/-- A snapshot taken before the section becomes visible. -/
def c9snap : AnimationState := getState c9base

/-- The controller after the section became visible (a mutation performed
after the snapshot was taken). -/
def c9after : AnimationController := handleIntersection [(("a"), true)] c9base

/-- Counterexample to claim C9 as stated: the snapshot is affected by
subsequent controller mutations, because `{ ...this.state }` copies the
references to the nested `visibleSections` and `performanceMetrics` objects
rather than snapshotting their contents.  At snapshot time the set behind
the snapshot reference is empty; after a later `handleIntersection` the same
reference yields `[a]`; and writing a set through the reference carried by
the snapshot changes the live controller state. -/
theorem c9_counterexample :
    c9base.setHeap c9snap.visibleRef = [] ∧
    c9after.setHeap c9snap.visibleRef = [("a")] ∧
    AnimationController.visible (writeVisibleAt c9base c9snap.visibleRef [("x")]) = [("x")] := by
  refine ⟨by with_unfolding_all decide, by with_unfolding_all decide,
    by with_unfolding_all decide⟩

/-! ## Missing intersection-observer fallback (claim C10) -/

/-- Operations that can take a running animation out of the running state:
visibility signals, explicit global disable, reduced motion turning on,
unregistration and error handling. -/
def mayHalt : COp → Bool
  | COp.intersect _ => true
  | COp.unregister _ => true
  | COp.animError _ => true
  | COp.activate b => !b
  | COp.rmSet m => m
  | COp.register _ _ => false

lemma startVisible_animStatus_running (c : AnimationController) (h : Nat)
    (hr : c.animStatus h = AnimStatus.running) :
    (startVisible c).animStatus h = AnimStatus.running := by
  rw [show startVisible c = _ from startFold_eq c.visible c]
  dsimp only
  split
  · rfl
  · exact hr

/-- Claim C10 (amended): when the intersection-observation primitive is
unavailable, initialization logs a warning and completes normally — the
resulting controller differs from the normally initialized one only in
having no observer and that warning (a degraded mode, not an error).  In
this mode no visibility signal is ever delivered, and the controller never
stops a running animation except through an intersection event, an explicit
`setActive(false)`, a reduced-motion activation, unregistration or error
handling — so animations that are already running run continuously, without
visibility gating.  However, registration alone never starts an animation,
so a section registered in the paused state is NOT started by the
controller. -/
theorem c10_observer_fallback (t0 : ℚ) (rm : Bool) (d0 : String → Option (List String)) :
    (initController false t0 rm d0
      = { initController true t0 rm d0 with
          observer := false
          events := [CEvent.warn
            ("IntersectionObserver not supported, animations will run continuously")] }) ∧
    (∀ (c : AnimationController) (h : Nat) (op : COp),
        c.animStatus h = AnimStatus.running → mayHalt op = false →
        (applyOp c op).animStatus h = AnimStatus.running) ∧
    (∀ (id : String) (hdl : Nat) (c : AnimationController) (h : Nat),
        (registerSection id hdl c).animStatus h = c.animStatus h) := by
  refine ⟨?_, ?_, fun id hdl c h => rfl⟩
  · apply AnimationController.ext <;> rfl
  · intro c h op hr hm
    cases op with
    | register id hdl => exact hr
    | unregister id => simp [mayHalt] at hm
    | intersect es => simp [mayHalt] at hm
    | animError id => simp [mayHalt] at hm
    | activate b =>
        have hb : b = true := by
          cases b
          · simp [mayHalt] at hm
          · rfl
        subst hb
        show (setActive true c).animStatus h = AnimStatus.running
        unfold setActive
        rw [if_neg (by decide)]
        by_cases hrm : !c.state.reducedMotionEnabled
        · rw [if_pos hrm]
          exact startVisible_animStatus_running _ h hr
        · rw [if_neg hrm]
          exact hr
    | rmSet m =>
        have hmf : m = false := by
          cases m
          · rfl
          · simp [mayHalt] at hm
        subst hmf
        show (reducedMotionChange false c).animStatus h = AnimStatus.running
        unfold reducedMotionChange
        rw [if_neg (by decide)]
        by_cases ha : c.state.isActive
        · rw [if_pos ha]
          exact startVisible_animStatus_running _ h hr
        · rw [if_neg ha]
          exact hr

/-- A controller with the animation of section `a` running (registered and
made visible while active and without reduced motion). -/
def runningCtx : AnimationController :=
  run ctrlBase [COp.register ("a") 0, COp.intersect [(("a"), true)]]

/-- Witness for C10: a running animation is still running after an
operation that is not one of the halting kinds (a fresh registration). -/
theorem c10_observer_fallback_witness :
    runningCtx.animStatus 0 = AnimStatus.running ∧
    mayHalt (COp.register ("b") 5) = false ∧
    (applyOp runningCtx (COp.register ("b") 5)).animStatus 0 = AnimStatus.running := by
  have h1 : runningCtx.animStatus 0 = AnimStatus.running := by with_unfolding_all decide
  exact ⟨h1, by decide,
    (c10_observer_fallback 1000 false domNone).2.1 runningCtx 0 (COp.register ("b") 5) h1
      (by decide)⟩

/-- A controller initialized without the intersection primitive, with the
section `hero` registered (its animation handed over in the paused state, as
in the register transition of the state machine). -/
def fallbackCtrl : AnimationController :=
  registerSection ("hero") 0 (initController false 1000 false domNone)

/-- Counterexample to claim C10 as stated: in the fallback mode "every
registered section's animation still runs" is false — the controller never
delivers visibility signals and `registerSection` does not start anything,
so the registered animation stays paused, even after `setActive(true)`
(whose resume loop only covers sections in the visible set, which stays
empty).  The fallback itself does hold: a warning is logged and
initialization completes, no observer is created. -/
theorem c10_counterexample :
    fallbackCtrl.observer = false ∧
    fallbackCtrl.events = [CEvent.warn
      ("IntersectionObserver not supported, animations will run continuously")] ∧
    fallbackCtrl.animStatus 0 = AnimStatus.paused ∧
    (setActive true fallbackCtrl).animStatus 0 = AnimStatus.paused := by
  refine ⟨by with_unfolding_all decide, by with_unfolding_all decide,
    by with_unfolding_all decide, by with_unfolding_all decide⟩

/-! ## Error handler (claim C8) -/

lemma mapGet_eq_none_of_not_mem : ∀ (m : List (String × Nat)) (id : String),
    id ∉ m.map Prod.fst → mapGet m id = none := by
  intro m
  induction m with
  | nil => intro id _; rfl
  | cons p rest ih =>
      intro id hnot
      unfold mapGet
      rw [if_neg ?hne]
      · exact ih id (fun hc => hnot (List.mem_cons_of_mem _ hc))
      case hne =>
        intro hbeq
        exact hnot (by
          have : p.1 = id := by simpa using hbeq
          rw [← this]
          exact List.mem_map_of_mem _ (List.mem_cons_self _ _))

lemma mapGet_some_mem : ∀ (m : List (String × Nat)) (id : String) (h : Nat),
    mapGet m id = some h → (id, h) ∈ m := by
  intro m
  induction m with
  | nil => intro id h hm; cases hm
  | cons p rest ih =>
      intro id h hm
      unfold mapGet at hm
      by_cases hq : p.1 == id
      · rw [if_pos hq] at hm
        injection hm with hv
        have hpe : p.1 = id := by simpa using hq
        have : p = (id, h) := by
          cases p
          simp_all
        rw [← this]
        exact List.mem_cons_self _ _
      · rw [if_neg hq] at hm
        exact List.mem_cons_of_mem _ (ih id h hm)

lemma mapGet_mapDelete_self : ∀ (m : List (String × Nat)) (id : String),
    (m.map Prod.fst).Nodup → mapGet (mapDelete m id) id = none := by
  intro m
  induction m with
  | nil => intro id _; rfl
  | cons p rest ih =>
      intro id hnd
      have hnd' : (rest.map Prod.fst).Nodup := (List.nodup_cons.mp (by simpa using hnd)).2
      have hnotin : p.1 ∉ rest.map Prod.fst := (List.nodup_cons.mp (by simpa using hnd)).1
      unfold mapDelete
      by_cases hq : p.1 == id
      · rw [if_pos hq]
        have hpe : p.1 = id := by simpa using hq
        rw [← hpe]
        exact mapGet_eq_none_of_not_mem rest p.1 hnotin
      · rw [if_neg hq]
        unfold mapGet
        rw [if_neg hq]
        exact ih id hnd'

@[simp] lemma applyStaticFallback_animations (id : String) (c : AnimationController) :
    (applyStaticFallback id c).animations = c.animations := by
  unfold applyStaticFallback
  cases c.dom id <;> rfl

@[simp] lemma applyStaticFallback_animStatus (id : String) (c : AnimationController) :
    (applyStaticFallback id c).animStatus = c.animStatus := by
  unfold applyStaticFallback
  cases c.dom id <;> rfl

@[simp] lemma applyStaticFallback_events (id : String) (c : AnimationController) :
    (applyStaticFallback id c).events = c.events := by
  unfold applyStaticFallback
  cases c.dom id <;> rfl

lemma applyStaticFallback_dom_self (id : String) (c : AnimationController) :
    (applyStaticFallback id c).dom id
      = (c.dom id).map (fun cls => classListAdd (fallbackClassFor id) cls) := by
  unfold applyStaticFallback
  cases hd : c.dom id with
  | none =>
      rw [hd]
      rfl
  | some cls =>
      dsimp only
      show Function.update c.dom id (some (classListAdd (fallbackClassFor id) cls)) id
        = (some cls).map (fun cls => classListAdd (fallbackClassFor id) cls)
      rw [Function.update_same]
      rfl

lemma applyStaticFallback_dom_none (id : String) (c : AnimationController)
    (hd : c.dom id = none) : (applyStaticFallback id c).dom = c.dom := by
  unfold applyStaticFallback
  rw [hd]

lemma unregisterSection_dom (id : String) (c : AnimationController) :
    (unregisterSection id c).dom = c.dom := by
  unfold unregisterSection
  cases mapGet c.animations id <;> rfl

lemma unregisterSection_animations_none (id : String) (c : AnimationController)
    (hm : mapGet c.animations id = none) :
    (unregisterSection id c).animations = c.animations := by
  unfold unregisterSection
  rw [hm]

lemma unregisterSection_mapGet_self (id : String) (c : AnimationController)
    (hnd : (c.animations.map Prod.fst).Nodup) :
    mapGet (unregisterSection id c).animations id = none := by
  unfold unregisterSection
  cases hm : mapGet c.animations id with
  | none => exact hm
  | some h =>
      show mapGet (mapDelete c.animations id) id = none
      exact mapGet_mapDelete_self c.animations id hnd

lemma unregisterSection_cleans (id : String) (c : AnimationController) (h : Nat)
    (hm : mapGet c.animations id = some h) :
    (unregisterSection id c).animStatus h = AnimStatus.cleaned ∧
    CEvent.cleanupCall h ∈ (unregisterSection id c).events := by
  unfold unregisterSection
  rw [hm]
  constructor
  · show Function.update c.animStatus h AnimStatus.cleaned h = AnimStatus.cleaned
    exact Function.update_same _ _ _
  · show CEvent.cleanupCall h ∈ c.events ++ [CEvent.cleanupCall h]
    exact List.mem_append_right _ (List.mem_singleton.mpr rfl)

/-- Whether DOM token validation rejects a string: `DOMTokenList.add`
throws (`SyntaxError` / `InvalidCharacterError`) when the token is empty or
contains whitespace (character 32 here; the fallback strings contain no
other whitespace). -/
def invalidToken (s : String) : Bool :=
  s.data.isEmpty || s.data.any (fun ch => ch.toNat == 32)

/-- DOM `classList.add` with one token, faithfully fallible: `none` is the
exception thrown for an empty or whitespace-containing token — thrown
before anything is mutated; otherwise the token is appended unless already
present. -/
def classListAddDom (cls : String) (l : List String) : Option (List String) :=
  if invalidToken cls then none
  else some (if cls ∈ l then l else l ++ [cls])

/-- `AnimationErrorHandler.applyStaticFallback(sectionId)` with the real
`classList.add` semantics: no-op when `getElementById` finds nothing;
otherwise the add throws (`none`) exactly when the fallback class is not a
single valid token. -/
def applyStaticFallbackDom (id : String) (c : AnimationController) :
    Option AnimationController :=
  match c.dom id with
  | none => some c
  | some classes =>
      match classListAddDom (fallbackClassFor id) classes with
      | none => none
      | some l => some { c with dom := Function.update c.dom id (some l) }

/-- `AnimationErrorHandler.handleAnimationError(error, sectionId)` with the
real `classList.add` semantics: warn, then apply the fallback — when the
fallback throws (`none`) the exception escapes the handler and
`controller.unregisterSection(sectionId)` on the following line never
runs. -/
def handleAnimationErrorDom (id : String) (c : AnimationController) :
    Option AnimationController :=
  match applyStaticFallbackDom id (warnEvent (("Animation error in ") ++ id) c) with
  | none => none
  | some c2 => some (unregisterSection id c2)

@[simp] lemma warnEvent_dom (msg : String) (c : AnimationController) :
    (warnEvent msg c).dom = c.dom := rfl

lemma applyStaticFallbackDom_none_iff (id : String) (c : AnimationController) :
    applyStaticFallbackDom id c = none ↔
      invalidToken (fallbackClassFor id) = true ∧ ∃ classes, c.dom id = some classes := by
  unfold applyStaticFallbackDom
  cases hd : c.dom id with
  | none =>
      dsimp only
      simp
  | some classes =>
      dsimp only
      unfold classListAddDom
      by_cases hi : invalidToken (fallbackClassFor id) = true
      · rw [if_pos hi]
        simp [hi]
      · rw [if_neg hi]
        simp [hi]

lemma handleAnimationErrorDom_none_iff (id : String) (c : AnimationController) :
    handleAnimationErrorDom id c = none ↔
      invalidToken (fallbackClassFor id) = true ∧ ∃ classes, c.dom id = some classes := by
  unfold handleAnimationErrorDom
  cases ha : applyStaticFallbackDom id (warnEvent (("Animation error in ") ++ id) c) with
  | none =>
      dsimp only
      have hx := (applyStaticFallbackDom_none_iff id _).mp ha
      rw [warnEvent_dom] at hx
      simp [hx]
  | some c2 =>
      dsimp only
      constructor
      · intro hco
        cases hco
      · intro hx
        exfalso
        have hnone := (applyStaticFallbackDom_none_iff id
          (warnEvent (("Animation error in ") ++ id) c)).mpr (by rw [warnEvent_dom]; exact hx)
        rw [ha] at hnone
        cases hnone

lemma applyStaticFallbackDom_core (id : String) (c c2 : AnimationController)
    (h : applyStaticFallbackDom id c = some c2) :
    c2.animations = c.animations ∧ c2.animStatus = c.animStatus := by
  unfold applyStaticFallbackDom at h
  cases hd : c.dom id with
  | none =>
      rw [hd] at h
      dsimp only at h
      injection h with hv
      rw [← hv]
      exact ⟨rfl, rfl⟩
  | some classes =>
      rw [hd] at h
      dsimp only at h
      cases hcl : classListAddDom (fallbackClassFor id) classes with
      | none =>
          rw [hcl] at h
          cases h
      | some l =>
          rw [hcl] at h
          dsimp only at h
          injection h with hv
          rw [← hv]
          exact ⟨rfl, rfl⟩

/-- Claim C8 (code bug): the spec has the handler apply the static fallback
class, unregister the section, and never throw.  In the source,
`applyStaticFallback` calls `section.classList.add(fallbackClass)` and
every entry of the fallback table is a multi-class string containing
spaces, which `DOMTokenList.add` rejects with `InvalidCharacterError`; so
whenever the section container exists — the normal case — the handler
throws at the add, before `controller.unregisterSection(sectionId)`, and
neither applies any class nor unregisters anything.  The last conjunct
checks that every animated section of the fallback table is affected. -/
theorem c8_handleAnimationError_code_bug (c : AnimationController) (id : String)
    (classes : List String) (hdom : c.dom id = some classes)
    (hsp : invalidToken (fallbackClassFor id) = true) :
    applyStaticFallbackDom id c = none ∧
    handleAnimationErrorDom id c = none ∧
    (∀ id2, id2 ∈ [("hero"), ("challenge"), ("framework"), ("impact"),
        ("engagement"), ("footer")] → invalidToken (fallbackClassFor id2) = true) := by
  refine ⟨(applyStaticFallbackDom_none_iff id c).mpr ⟨hsp, classes, hdom⟩,
    (handleAnimationErrorDom_none_iff id c).mpr ⟨hsp, classes, hdom⟩, ?_⟩
  intro id2 hmem
  fin_cases hmem <;> with_unfolding_all decide

/-- A DOM holding only the `hero` section container (with no classes). -/
def domHero : String → Option (List String) :=
  fun id => if id == ("hero") then some [] else none

/-- A controller over that DOM with `hero` registered. -/
def c8ctx : AnimationController :=
  registerSection ("hero") 0 (initController true 1000 false domHero)

/-- Witness for the C8 divergence: on the concrete controller whose DOM has
the `hero` container, the error handler throws — the faithful model returns
`none` — so `hero` is never unregistered. -/
theorem c8_handleAnimationError_code_bug_witness :
    c8ctx.dom ("hero") = some [] ∧
    invalidToken (fallbackClassFor ("hero")) = true ∧
    handleAnimationErrorDom ("hero") c8ctx = none := by
  have hdom : c8ctx.dom ("hero") = some [] := by with_unfolding_all decide
  have hsp : invalidToken (fallbackClassFor ("hero")) = true := by
    with_unfolding_all decide
  exact ⟨hdom, hsp,
    (c8_handleAnimationError_code_bug c8ctx ("hero") [] hdom hsp).2.1⟩

/-! ## Performance degradation (claim C5) -/

/-- Number of `console.warn` events in a log. -/
def countWarns : List CEvent → Nat
  | [] => 0
  | CEvent.warn _ :: es => countWarns es + 1
  | CEvent.startCall _ :: es => countWarns es
  | CEvent.pauseCall _ :: es => countWarns es
  | CEvent.cleanupCall _ :: es => countWarns es

lemma countWarns_append : ∀ (l1 l2 : List CEvent),
    countWarns (l1 ++ l2) = countWarns l1 + countWarns l2 := by
  intro l1 l2
  induction l1 with
  | nil => simp [countWarns]
  | cons e es ih =>
      cases e <;> simp [countWarns, ih] <;> omega

lemma countWarns_pauseCalls (l : List (String × Nat)) :
    countWarns (l.map (fun p => CEvent.pauseCall p.2)) = 0 := by
  induction l with
  | nil => rfl
  | cons p rest ih => simpa [countWarns] using ih

/-- Characterization of `pauseAll`. -/
lemma pauseAll_eq (c : AnimationController) :
    pauseAll c =
      { c with
        animStatus := fun h =>
          if h ∈ c.animations.map Prod.snd then AnimStatus.paused else c.animStatus h
        events := c.events ++ c.animations.map (fun p => CEvent.pauseCall p.2) } :=
  pauseFold_eq c.animations c

/-- Characterization of `startVisible`. -/
lemma startVisible_eq (c : AnimationController) :
    startVisible c =
      { c with
        animStatus := fun h =>
          if ∃ id, id ∈ c.visible ∧ mapGet c.animations id = some h then AnimStatus.running
          else c.animStatus h
        events := c.events
          ++ (c.visible.filterMap (fun id => mapGet c.animations id)).map CEvent.startCall } :=
  startFold_eq c.visible c

@[simp] lemma warnEvent_animStatus (msg : String) (c : AnimationController) :
    (warnEvent msg c).animStatus = c.animStatus := rfl

lemma pauseAll_metrics (c : AnimationController) : (pauseAll c).metrics = c.metrics := by
  rw [pauseAll_eq]
  rfl

lemma startVisible_metrics (c : AnimationController) :
    (startVisible c).metrics = c.metrics := by
  rw [startVisible_eq]
  rfl

lemma pauseAll_animations (c : AnimationController) :
    (pauseAll c).animations = c.animations := by
  rw [pauseAll_eq]

lemma setActive_metrics (b : Bool) (c : AnimationController) :
    (setActive b c).metrics = c.metrics := by
  unfold setActive
  by_cases hb : !b
  · rw [if_pos hb, pauseAll_metrics]
    rfl
  · rw [if_neg hb]
    by_cases hrm : !c.state.reducedMotionEnabled
    · rw [if_pos hrm, startVisible_metrics]
      rfl
    · rw [if_neg hrm]
      rfl

lemma setActive_false_events (c : AnimationController) :
    (setActive false c).events
      = c.events ++ c.animations.map (fun p => CEvent.pauseCall p.2) := by
  unfold setActive
  rw [if_pos (by decide), pauseAll_eq]
  rfl

lemma setActive_false_status_mem (c : AnimationController) (h : Nat)
    (hm : h ∈ c.animations.map Prod.snd) :
    (setActive false c).animStatus h = AnimStatus.paused := by
  unfold setActive
  rw [if_pos (by decide), pauseAll_eq]
  dsimp only
  rw [if_pos (show h ∈ (setActiveFlag false c).animations.map Prod.snd from hm)]

lemma handleDeg_severe (reason : String) (c : AnimationController)
    (h : c.metrics.frameRate < 15) :
    handlePerformanceDegradation reason c
      = warnEvent ("Animations disabled due to severe performance issues")
          (setActive false (warnEvent ("Performance degradation detected: " ++ reason) c)) := by
  unfold handlePerformanceDegradation
  rw [if_pos h]

@[simp] lemma recordFrameRate_metrics (t : ℚ) (c : AnimationController) :
    (recordFrameRate t c).metrics
      = { c.metrics with
          frameRate := 1000 / (t - c.metrics.lastFrameTime)
          lastFrameTime := t } :=
  writeMetrics_metrics _ _

@[simp] lemma recordFrameRate_events (t : ℚ) (c : AnimationController) :
    (recordFrameRate t c).events = c.events := rfl

@[simp] lemma recordFrameRate_animations (t : ℚ) (c : AnimationController) :
    (recordFrameRate t c).animations = c.animations := rfl

@[simp] lemma recordFrameRate_animStatus (t : ℚ) (c : AnimationController) :
    (recordFrameRate t c).animStatus = c.animStatus := rfl

@[simp] lemma recordFrameRate_state (t : ℚ) (c : AnimationController) :
    (recordFrameRate t c).state = c.state := rfl

lemma recordMemory_metrics_frameRate (mem : Option ℚ) (c : AnimationController) :
    (recordMemory mem c).metrics.frameRate = c.metrics.frameRate := by
  cases mem <;> simp [recordMemory]

lemma recordMemory_metrics_mem (mem : Option ℚ) (c : AnimationController) :
    (recordMemory mem c).metrics.memoryUsage = mem.getD c.metrics.memoryUsage := by
  cases mem <;> simp [recordMemory]

@[simp] lemma recordMemory_events (mem : Option ℚ) (c : AnimationController) :
    (recordMemory mem c).events = c.events := by
  cases mem <;> rfl

@[simp] lemma recordMemory_animations (mem : Option ℚ) (c : AnimationController) :
    (recordMemory mem c).animations = c.animations := by
  cases mem <;> rfl

@[simp] lemma recordMemory_animStatus (mem : Option ℚ) (c : AnimationController) :
    (recordMemory mem c).animStatus = c.animStatus := by
  cases mem <;> rfl

@[simp] lemma recordMemory_state (mem : Option ℚ) (c : AnimationController) :
    (recordMemory mem c).state = c.state := by
  cases mem <;> rfl

@[simp] lemma requestMonitorFrame_events (c : AnimationController) :
    (requestMonitorFrame c).events = c.events := rfl

@[simp] lemma requestMonitorFrame_animStatus (c : AnimationController) :
    (requestMonitorFrame c).animStatus = c.animStatus := rfl

@[simp] lemma requestMonitorFrame_state (c : AnimationController) :
    (requestMonitorFrame c).state = c.state := rfl

/-- Claim C5 (amended): on every sampled monitor frame whose computed frame
rate is below the severe threshold of 15fps (and whose memory reading stays
at or below the 50MB threshold), the controller force-disables all
animations globally — every registered animation receives `pause()` and the
global active flag turns false — and emits TWO warning events on that frame
(the degradation warning and the disable warning), not exactly one overall:
sustained low frame rate repeats this every sampled frame. -/
theorem c5_severe_degradation (c : AnimationController) (t : ℚ) (mem : Option ℚ)
    (hrate : 1000 / (t - c.metrics.lastFrameTime) < 15)
    (hmem : mem.getD c.metrics.memoryUsage ≤ 50) :
    countWarns (monitorStep t mem c).events = countWarns c.events + 2 ∧
    (monitorStep t mem c).state.isActive = false ∧
    (∀ p ∈ c.animations, (monitorStep t mem c).animStatus p.2 = AnimStatus.paused) := by
  have hX_rate : (recordMemory mem (recordFrameRate t c)).metrics.frameRate
      = 1000 / (t - c.metrics.lastFrameTime) := by
    rw [recordMemory_metrics_frameRate, recordFrameRate_metrics]
  have hX_mem : (recordMemory mem (recordFrameRate t c)).metrics.memoryUsage
      = mem.getD c.metrics.memoryUsage := by
    rw [recordMemory_metrics_mem, recordFrameRate_metrics]
  have hcf : checkFrameRate (recordMemory mem (recordFrameRate t c))
      = handlePerformanceDegradation ("low_framerate")
          (recordMemory mem (recordFrameRate t c)) := by
    unfold checkFrameRate
    rw [if_pos ?hpo]
    case hpo =>
      rw [hX_rate]
      unfold frameRateThreshold
      linarith
  have hdeg := handleDeg_severe ("low_framerate") (recordMemory mem (recordFrameRate t c))
    (by rw [hX_rate]; exact hrate)
  have hD_metrics :
      (warnEvent ("Animations disabled due to severe performance issues")
        (setActive false (warnEvent ("Performance degradation detected: " ++ ("low_framerate"))
          (recordMemory mem (recordFrameRate t c))))).metrics
      = (recordMemory mem (recordFrameRate t c)).metrics := by
    rw [warnEvent_metrics, setActive_metrics, warnEvent_metrics]
  have hcm : checkMemory
      (warnEvent ("Animations disabled due to severe performance issues")
        (setActive false (warnEvent ("Performance degradation detected: " ++ ("low_framerate"))
          (recordMemory mem (recordFrameRate t c)))))
      = (warnEvent ("Animations disabled due to severe performance issues")
        (setActive false (warnEvent ("Performance degradation detected: " ++ ("low_framerate"))
          (recordMemory mem (recordFrameRate t c))))) := by
    unfold checkMemory
    rw [if_neg ?hneg]
    case hneg =>
      rw [hD_metrics, hX_mem]
      unfold memoryThreshold
      exact not_lt.mpr hmem
  have hms : monitorStep t mem c
      = requestMonitorFrame
          (warnEvent ("Animations disabled due to severe performance issues")
            (setActive false (warnEvent ("Performance degradation detected: " ++ ("low_framerate"))
              (recordMemory mem (recordFrameRate t c))))) := by
    unfold monitorStep
    rw [hcf, hdeg, hcm]
  rw [hms]
  refine ⟨?_, ?_, ?_⟩
  · rw [requestMonitorFrame_events, warnEvent_events, setActive_false_events, warnEvent_events,
      recordMemory_events, recordFrameRate_events, warnEvent_animations, recordMemory_animations,
      recordFrameRate_animations]
    rw [countWarns_append, countWarns_append, countWarns_append, countWarns_pauseCalls]
    simp [countWarns]
  · rw [requestMonitorFrame_state, warnEvent_state, setActive_state]
  · intro p hp
    rw [requestMonitorFrame_animStatus, warnEvent_animStatus]
    refine setActive_false_status_mem _ p.2 ?_
    rw [warnEvent_animations, recordMemory_animations, recordFrameRate_animations]
    exact List.mem_map_of_mem _ hp

/-- Witness for C5: the amended theorem applied to the concrete controller
with a running section and a monitor frame 100ms after construction (10fps),
memory probe absent. -/
theorem c5_severe_degradation_witness :
    1000 / (1100 - (AnimationController.metrics runningCtx).lastFrameTime) < (15:ℚ) ∧
    countWarns (monitorStep 1100 none runningCtx).events = countWarns runningCtx.events + 2 ∧
    (monitorStep 1100 none runningCtx).state.isActive = false := by
  have h1 : 1000 / (1100 - (AnimationController.metrics runningCtx).lastFrameTime) < (15:ℚ) := by
    with_unfolding_all decide
  have h2 : (Option.getD (none : Option ℚ)
      (AnimationController.metrics runningCtx).memoryUsage) ≤ 50 := by
    with_unfolding_all decide
  exact ⟨h1, (c5_severe_degradation runningCtx 1100 none h1 h2).1,
    (c5_severe_degradation runningCtx 1100 none h1 h2).2.1⟩

/-- The controller after two sampled monitor frames at 10fps (2 seconds of
the claimed scenario sampled at 1100ms and 1200ms after construction at
1000ms would deliver one such pair per frame; two frames suffice to exceed
one warning). -/
def c5after : AnimationController := monitorStep 1200 none (monitorStep 1100 none runningCtx)

/-- Counterexample to claim C5 as stated: a frame rate of 10fps sustained
over sampled frames does pause all running sections, but does NOT emit
exactly one degradation warning event — the code warns on every sampled
degraded frame (twice per frame below 15fps: the detection warning and the
disable warning).  After only two sampled frames there are already four
warning events. -/
theorem c5_counterexample :
    countWarns c5after.events = 4 ∧
    (4 : Nat) ≠ 1 ∧
    c5after.animStatus 0 = AnimStatus.paused ∧
    c5after.state.isActive = false := by
  refine ⟨by with_unfolding_all decide, by decide,
    by with_unfolding_all decide, by with_unfolding_all decide⟩

/-! ## Start/pause triggers (claim C4) -/

/-- The animation-method events emitted while handling one intersection
entry. -/
def entryEvents (c : AnimationController) (e : String × Bool) : List CEvent :=
  match mapGet c.animations e.1 with
  | none => []
  | some h =>
      if e.2 then
        if !c.state.reducedMotionEnabled && c.state.isActive then [CEvent.startCall h] else []
      else [CEvent.pauseCall h]

lemma handleEntry_events (c : AnimationController) (e : String × Bool) :
    (handleEntry c e).events = c.events ++ entryEvents c e := by
  unfold handleEntry entryEvents
  cases mapGet c.animations e.1
  · simp
  · dsimp only
    split
    · split <;> simp
    · simp

lemma handleEntry_flags (c : AnimationController) (e : String × Bool) :
    (handleEntry c e).animations = c.animations ∧
    (handleEntry c e).state.reducedMotionEnabled = c.state.reducedMotionEnabled ∧
    (handleEntry c e).state.isActive = c.state.isActive := by
  unfold handleEntry
  cases mapGet c.animations e.1
  · exact ⟨rfl, rfl, rfl⟩
  · dsimp only
    split
    · split <;> exact ⟨rfl, rfl, rfl⟩
    · exact ⟨rfl, rfl, rfl⟩

/-- The events emitted while handling a whole entry list (the state evolves
entry by entry). -/
def intersectEvents : List (String × Bool) → AnimationController → List CEvent
  | [], _ => []
  | e :: es, c => entryEvents c e ++ intersectEvents es (handleEntry c e)

lemma handleIntersection_events : ∀ (es : List (String × Bool)) (c : AnimationController),
    (handleIntersection es c).events = c.events ++ intersectEvents es c := by
  intro es
  induction es with
  | nil =>
      intro c
      simp [handleIntersection, intersectEvents]
  | cons e es ih =>
      intro c
      show (handleIntersection es (handleEntry c e)).events = _
      rw [ih, handleEntry_events]
      simp [intersectEvents]

/-- The events emitted by one operation, as a function of the pre-state. -/
def opEvents (c : AnimationController) : COp → List CEvent
  | COp.register _ _ => []
  | COp.unregister id =>
      match mapGet c.animations id with
      | none => []
      | some h => [CEvent.cleanupCall h]
  | COp.intersect es => intersectEvents es c
  | COp.activate b =>
      if !b then c.animations.map (fun p => CEvent.pauseCall p.2)
      else if !c.state.reducedMotionEnabled then
        (c.visible.filterMap (fun id => mapGet c.animations id)).map CEvent.startCall
      else []
  | COp.rmSet m =>
      if m then c.animations.map (fun p => CEvent.pauseCall p.2)
      else if c.state.isActive then
        (c.visible.filterMap (fun id => mapGet c.animations id)).map CEvent.startCall
      else []
  | COp.animError id =>
      CEvent.warn ("Animation error in " ++ id) ::
        (match mapGet c.animations id with
         | none => []
         | some h => [CEvent.cleanupCall h])

lemma unregisterSection_events_none (id : String) (c : AnimationController)
    (hm : mapGet c.animations id = none) :
    (unregisterSection id c).events = c.events := by
  unfold unregisterSection
  rw [hm]

lemma unregisterSection_events_some (id : String) (c : AnimationController) (h : Nat)
    (hm : mapGet c.animations id = some h) :
    (unregisterSection id c).events = c.events ++ [CEvent.cleanupCall h] := by
  unfold unregisterSection
  rw [hm]
  rfl

lemma applyOp_events (c : AnimationController) (op : COp) :
    (applyOp c op).events = c.events ++ opEvents c op := by
  cases op with
  | register id h => simp [applyOp, registerSection, opEvents]
  | unregister id =>
      show (unregisterSection id c).events = _
      simp only [opEvents]
      cases hm : mapGet c.animations id with
      | none =>
          rw [unregisterSection_events_none id c hm]
          simp
      | some h => exact unregisterSection_events_some id c h hm
  | intersect es => exact handleIntersection_events es c
  | activate b =>
      show (setActive b c).events = _
      unfold setActive
      simp only [opEvents]
      by_cases hb : !b
      · rw [if_pos hb, if_pos hb, pauseAll_eq]
        rfl
      · rw [if_neg hb, if_neg hb]
        by_cases hrm : !c.state.reducedMotionEnabled
        · rw [if_pos hrm, if_pos hrm, startVisible_eq]
          rfl
        · rw [if_neg hrm, if_neg hrm]
          simp
  | rmSet m =>
      show (reducedMotionChange m c).events = _
      unfold reducedMotionChange
      simp only [opEvents]
      by_cases hm : m
      · rw [if_pos hm, if_pos hm, pauseAll_eq]
        rfl
      · rw [if_neg hm, if_neg hm]
        by_cases ha : c.state.isActive
        · rw [if_pos ha, if_pos ha, startVisible_eq]
          rfl
        · rw [if_neg ha, if_neg ha]
          simp
  | animError id =>
      show (unregisterSection id
        (applyStaticFallback id (warnEvent ("Animation error in " ++ id) c))).events = _
      simp only [opEvents]
      have hfan : (applyStaticFallback id
          (warnEvent ("Animation error in " ++ id) c)).animations = c.animations := by simp
      cases hm : mapGet c.animations id with
      | none =>
          rw [unregisterSection_events_none id _ (by rw [hfan]; exact hm)]
          simp
      | some h =>
          rw [unregisterSection_events_some id _ h (by rw [hfan]; exact hm)]
          simp

lemma newEvents_eq (op : COp) (c : AnimationController) :
    newEvents op c = opEvents c op := by
  unfold newEvents
  rw [applyOp_events]
  simp

lemma intersectEvents_start_mem : ∀ (es : List (String × Bool)) (c : AnimationController)
    (id : String) (h : Nat),
    mapGet c.animations id = some h →
    (∀ id', mapGet c.animations id' = some h → id' = id) →
    (CEvent.startCall h ∈ intersectEvents es c ↔
      ((id, true) ∈ es ∧ c.state.reducedMotionEnabled = false ∧ c.state.isActive = true)) := by
  intro es
  induction es with
  | nil =>
      intro c id h hm hinj
      simp [intersectEvents]
  | cons e es ih =>
      intro c id h hm hinj
      obtain ⟨eid, eb⟩ := e
      have hflags := handleEntry_flags c (eid, eb)
      have ih' := ih (handleEntry c (eid, eb)) id h (by rw [hflags.1]; exact hm)
        (fun id' hm' => hinj id' (by rw [← hflags.1]; exact hm'))
      rw [show intersectEvents ((eid, eb) :: es) c
            = entryEvents c (eid, eb) ++ intersectEvents es (handleEntry c (eid, eb)) from rfl]
      rw [List.mem_append, ih', hflags.2.1, hflags.2.2]
      constructor
      · rintro (hel | ⟨hes, hrm, hact⟩)
        · unfold entryEvents at hel
          dsimp only at hel
          cases hmg : mapGet c.animations eid with
          | none =>
              rw [hmg] at hel
              dsimp only at hel
              cases hel
          | some h2 =>
              rw [hmg] at hel
              dsimp only at hel
              by_cases he2 : eb = true
              · rw [if_pos he2] at hel
                by_cases hfl : (!c.state.reducedMotionEnabled && c.state.isActive) = true
                · rw [if_pos hfl] at hel
                  have hh2 : h2 = h := by
                    have := List.mem_singleton.mp hel
                    injection this.symm
                  subst hh2
                  have hid : eid = id := hinj eid hmg
                  have hand : c.state.reducedMotionEnabled = false ∧ c.state.isActive = true := by
                    simpa using hfl
                  subst hid
                  subst he2
                  exact ⟨List.mem_cons_self _ _, hand.1, hand.2⟩
                · rw [if_neg hfl] at hel
                  cases hel
              · rw [if_neg he2] at hel
                simp at hel
        · exact ⟨List.mem_cons_of_mem _ hes, hrm, hact⟩
      · rintro ⟨hmem, hrm, hact⟩
        rcases List.mem_cons.mp hmem with he | hes
        · left
          have heid : eid = id := (congrArg Prod.fst he).symm
          have heb : eb = true := (congrArg Prod.snd he).symm
          subst heid
          subst heb
          unfold entryEvents
          dsimp only
          rw [hm]
          dsimp only
          rw [if_pos rfl, if_pos (by rw [hrm, hact]; rfl)]
          exact List.mem_singleton.mpr rfl
        · right
          exact ⟨hes, hrm, hact⟩

lemma intersectEvents_pause_mem : ∀ (es : List (String × Bool)) (c : AnimationController)
    (id : String) (h : Nat),
    mapGet c.animations id = some h →
    (∀ id', mapGet c.animations id' = some h → id' = id) →
    (CEvent.pauseCall h ∈ intersectEvents es c ↔ (id, false) ∈ es) := by
  intro es
  induction es with
  | nil =>
      intro c id h hm hinj
      simp [intersectEvents]
  | cons e es ih =>
      intro c id h hm hinj
      obtain ⟨eid, eb⟩ := e
      have hflags := handleEntry_flags c (eid, eb)
      have ih' := ih (handleEntry c (eid, eb)) id h (by rw [hflags.1]; exact hm)
        (fun id' hm' => hinj id' (by rw [← hflags.1]; exact hm'))
      rw [show intersectEvents ((eid, eb) :: es) c
            = entryEvents c (eid, eb) ++ intersectEvents es (handleEntry c (eid, eb)) from rfl]
      rw [List.mem_append, ih']
      constructor
      · rintro (hel | hes)
        · unfold entryEvents at hel
          dsimp only at hel
          cases hmg : mapGet c.animations eid with
          | none =>
              rw [hmg] at hel
              dsimp only at hel
              cases hel
          | some h2 =>
              rw [hmg] at hel
              dsimp only at hel
              by_cases he2 : eb = true
              · rw [if_pos he2] at hel
                by_cases hfl : (!c.state.reducedMotionEnabled && c.state.isActive) = true
                · rw [if_pos hfl] at hel
                  simp at hel
                · rw [if_neg hfl] at hel
                  cases hel
              · rw [if_neg he2] at hel
                have hh2 : h2 = h := by
                  have := List.mem_singleton.mp hel
                  injection this.symm
                subst hh2
                have hid : eid = id := hinj eid hmg
                have heb : eb = false := by
                  cases eb
                  · rfl
                  · exact absurd rfl he2
                subst hid
                subst heb
                exact List.mem_cons_self _ _
        · exact List.mem_cons_of_mem _ hes
      · intro hmem
        rcases List.mem_cons.mp hmem with he | hes
        · left
          have heid : eid = id := (congrArg Prod.fst he).symm
          have heb : eb = false := (congrArg Prod.snd he).symm
          subst heid
          subst heb
          unfold entryEvents
          dsimp only
          rw [hm]
          dsimp only
          rw [if_neg (by simp)]
          exact List.mem_singleton.mpr rfl
        · right
          exact hes

/-- Claim C4 (amended): for a registered section (with its animation handle
unique to it), `start()` is invoked on its animation EXACTLY when (a) an
intersection entry reports it visible while the global flag is on and
reduced motion is off, or (b) `setActive(true)` runs while reduced motion is
off and the section is in the visible set, or (c) the reduced-motion
preference turns off while the global flag is on and the section is in the
visible set; `pause()` is invoked exactly when an intersection entry reports
it not visible, or `setActive(false)` runs, or the reduced-motion preference
turns on.  Registration, unregistration and error handling never invoke
`start()` or `pause()`. -/
theorem c4_start_pause_triggers (c : AnimationController) (id : String) (h : Nat)
    (hm : mapGet c.animations id = some h)
    (hinj : ∀ id', mapGet c.animations id' = some h → id' = id) :
    (∀ es, (CEvent.startCall h ∈ newEvents (COp.intersect es) c ↔
        (id, true) ∈ es ∧ c.state.reducedMotionEnabled = false ∧ c.state.isActive = true)) ∧
    (∀ es, (CEvent.pauseCall h ∈ newEvents (COp.intersect es) c ↔ (id, false) ∈ es)) ∧
    (∀ b, (CEvent.startCall h ∈ newEvents (COp.activate b) c ↔
        b = true ∧ c.state.reducedMotionEnabled = false ∧ id ∈ c.visible)) ∧
    (∀ b, (CEvent.pauseCall h ∈ newEvents (COp.activate b) c ↔ b = false)) ∧
    (∀ m, (CEvent.startCall h ∈ newEvents (COp.rmSet m) c ↔
        m = false ∧ c.state.isActive = true ∧ id ∈ c.visible)) ∧
    (∀ m, (CEvent.pauseCall h ∈ newEvents (COp.rmSet m) c ↔ m = true)) ∧
    (∀ id' h', CEvent.startCall h ∉ newEvents (COp.register id' h') c) ∧
    (∀ id' h', CEvent.pauseCall h ∉ newEvents (COp.register id' h') c) ∧
    (∀ id', CEvent.startCall h ∉ newEvents (COp.unregister id') c) ∧
    (∀ id', CEvent.pauseCall h ∉ newEvents (COp.unregister id') c) ∧
    (∀ id', CEvent.startCall h ∉ newEvents (COp.animError id') c) ∧
    (∀ id', CEvent.pauseCall h ∉ newEvents (COp.animError id') c) := by
  refine ⟨?_, ?_, ?_, ?_, ?_, ?_, ?_, ?_, ?_, ?_, ?_, ?_⟩
  · intro es
    rw [newEvents_eq]
    exact intersectEvents_start_mem es c id h hm hinj
  · intro es
    rw [newEvents_eq]
    exact intersectEvents_pause_mem es c id h hm hinj
  · intro b
    rw [newEvents_eq]
    simp only [opEvents]
    cases b with
    | false =>
        rw [if_pos (by decide)]
        simp
    | true =>
        rw [if_neg (by decide)]
        by_cases hrm : c.state.reducedMotionEnabled
        · rw [if_neg (by simp [hrm])]
          simp [hrm]
        · have hrmf : c.state.reducedMotionEnabled = false := Bool.eq_false_iff.mpr hrm
          rw [if_pos (by simp [hrmf])]
          simp only [List.mem_map, List.mem_filterMap]
          constructor
          · rintro ⟨h', ⟨id', hidv, hmg⟩, heq⟩
            have hh : h' = h := by injection heq
            subst hh
            have hid : id' = id := hinj id' hmg
            subst hid
            exact ⟨trivial, hrmf, hidv⟩
          · rintro ⟨_, _, hidv⟩
            exact ⟨h, ⟨id, hidv, hm⟩, rfl⟩
  · intro b
    rw [newEvents_eq]
    simp only [opEvents]
    cases b with
    | false =>
        rw [if_pos (by decide)]
        simp only [List.mem_map]
        constructor
        · intro _
          trivial
        · intro _
          exact ⟨(id, h), mapGet_some_mem _ _ _ hm, rfl⟩
    | true =>
        rw [if_neg (by decide)]
        by_cases hrm : c.state.reducedMotionEnabled
        · rw [if_neg (by simp [hrm])]
          simp
        · have hrmf : c.state.reducedMotionEnabled = false := Bool.eq_false_iff.mpr hrm
          rw [if_pos (by simp [hrmf])]
          simp
  · intro m
    rw [newEvents_eq]
    simp only [opEvents]
    cases m with
    | true =>
        rw [if_pos rfl]
        simp
    | false =>
        rw [if_neg (by decide)]
        by_cases ha : c.state.isActive
        · rw [if_pos ha]
          simp only [List.mem_map, List.mem_filterMap]
          constructor
          · rintro ⟨h', ⟨id', hidv, hmg⟩, heq⟩
            have hh : h' = h := by injection heq
            subst hh
            have hid : id' = id := hinj id' hmg
            subst hid
            exact ⟨trivial, ha, hidv⟩
          · rintro ⟨_, _, hidv⟩
            exact ⟨h, ⟨id, hidv, hm⟩, rfl⟩
        · rw [if_neg ha]
          simp [ha]
  · intro m
    rw [newEvents_eq]
    simp only [opEvents]
    cases m with
    | true =>
        rw [if_pos rfl]
        simp only [List.mem_map]
        constructor
        · intro _
          trivial
        · intro _
          exact ⟨(id, h), mapGet_some_mem _ _ _ hm, rfl⟩
    | false =>
        rw [if_neg (by decide)]
        by_cases ha : c.state.isActive
        · rw [if_pos ha]
          simp
        · rw [if_neg ha]
          simp
  · intro id' h'
    rw [newEvents_eq]
    simp [opEvents]
  · intro id' h'
    rw [newEvents_eq]
    simp [opEvents]
  · intro id'
    rw [newEvents_eq]
    simp only [opEvents]
    cases hmg : mapGet c.animations id' <;> simp
  · intro id'
    rw [newEvents_eq]
    simp only [opEvents]
    cases hmg : mapGet c.animations id' <;> simp
  · intro id'
    rw [newEvents_eq]
    simp only [opEvents]
    cases hmg : mapGet c.animations id' <;> simp
  · intro id'
    rw [newEvents_eq]
    simp only [opEvents]
    cases hmg : mapGet c.animations id' <;> simp

/-- The controller with section `a` registered, visible, and the global
flag then turned off. -/
def c4ctx : AnimationController :=
  run ctrlBase [COp.register ("a") 0, COp.intersect [(("a"), true)], COp.activate false]

/-- Whether an operation delivers a visibility signal. -/
def isVisibilitySignal : COp → Bool
  | COp.intersect _ => true
  | _ => false

/-- Counterexample to claim C4 as stated: `start()` is NOT invoked only when
a visibility signal arrives — `setActive(true)` on a visible section invokes
`start()` although the operation delivers no visibility signal at all, so
the "exactly when the section's visibility becomes true" characterization is
false. -/
theorem c4_counterexample :
    newEvents (COp.activate true) c4ctx = [CEvent.startCall 0] ∧
    isVisibilitySignal (COp.activate true) = false := by
  exact ⟨by with_unfolding_all decide, by decide⟩

/-- The controller with only section `a` registered. -/
def c4reg : AnimationController := run ctrlBase [COp.register ("a") 0]

/-- Witness for C4: the amended characterization applied to a concrete
controller — `setActive(false)` invokes `pause()` on the registered
animation. -/
theorem c4_start_pause_triggers_witness :
    mapGet c4reg.animations ("a") = some 0 ∧
    (CEvent.pauseCall 0 ∈ newEvents (COp.activate false) c4reg ↔ false = false) := by
  have hm : mapGet c4reg.animations ("a") = some 0 := by with_unfolding_all decide
  have hinj : ∀ id', mapGet c4reg.animations id' = some 0 → id' = ("a") := by
    intro id' hmg
    have hmem := mapGet_some_mem _ _ _ hmg
    have hanim : c4reg.animations = [(("a"), 0)] := by with_unfolding_all decide
    rw [hanim] at hmem
    have hpair := List.mem_singleton.mp hmem
    exact congrArg Prod.fst hpair
  exact ⟨hm, (c4_start_pause_triggers c4reg ("a") 0 hm hinj).2.2.2.1 false⟩

/-! ## C3: the section lifecycle invariant -/

/-- Section `id` is registered and its animation is running. -/
def sectionRunning (c : AnimationController) (id : String) : Prop :=
  ∃ h, mapGet c.animations id = some h ∧ c.animStatus h = AnimStatus.running

/-- Section `id` is registered and its animation is paused. -/
def sectionPaused (c : AnimationController) (id : String) : Prop :=
  ∃ h, mapGet c.animations id = some h ∧ c.animStatus h = AnimStatus.paused

/-- Section `id` is not in the registration map. -/
def sectionUnregistered (c : AnimationController) (id : String) : Prop :=
  mapGet c.animations id = none

/-- The lifecycle invariant of the registration map: keys are unique (a JS
`Map`), an animation handle identifies at most one section, registered
animations are never in the cleaned state, and a running animation is
registered under some id. -/
def InvC (c : AnimationController) : Prop :=
  (c.animations.map Prod.fst).Nodup ∧
  (∀ id1 id2 h, mapGet c.animations id1 = some h →
      mapGet c.animations id2 = some h → id1 = id2) ∧
  (∀ id h, mapGet c.animations id = some h → c.animStatus h ≠ AnimStatus.cleaned) ∧
  (∀ h, c.animStatus h = AnimStatus.running → h ∈ c.animations.map Prod.snd)

/-- A well-formed registration: the id is not currently registered and the
animation object is fresh — paused and not already registered under another
id.  All other operations are unconstrained. -/
def WFHead (c : AnimationController) : COp → Prop
  | COp.register id h =>
      mapGet c.animations id = none ∧ c.animStatus h = AnimStatus.paused ∧
        h ∉ c.animations.map Prod.snd
  | _ => True

/-- The controller state after the error handler under the real
`classList.add` semantics: when the handler throws, the exception escapes
to the host and the controller keeps the state at the throw point — only
the warning was emitted, since `classList.add` validates its token before
mutating anything. -/
def animErrorState (id : String) (c : AnimationController) : AnimationController :=
  match handleAnimationErrorDom id c with
  | some c2 => c2
  | none => warnEvent (("Animation error in ") ++ id) c

/-- `applyOp` with the faithful error-handler semantics. -/
def applyOpDom (c : AnimationController) : COp → AnimationController
  | COp.animError id => animErrorState id c
  | op => applyOp c op

/-- A run of operations with the faithful error-handler semantics. -/
def runDom (c : AnimationController) (ops : List COp) : AnimationController :=
  ops.foldl applyOpDom c

/-- Every registration in the sequence is well-formed at the moment it is
applied. -/
def WFOpsDom : AnimationController → List COp → Prop
  | _, [] => True
  | c, op :: rest => WFHead c op ∧ WFOpsDom (applyOpDom c op) rest

lemma mapSet_eq_append : ∀ (m : List (String × Nat)) (id : String) (h : Nat),
    mapGet m id = none → mapSet m id h = m ++ [(id, h)] := by
  intro m
  induction m with
  | nil => intro id h _; rfl
  | cons p rest ih =>
      intro id h hm
      unfold mapGet at hm
      by_cases hq : p.1 == id
      · rw [if_pos hq] at hm
        cases hm
      · rw [if_neg hq] at hm
        unfold mapSet
        rw [if_neg hq, ih id h hm]
        rfl

lemma mapGet_append : ∀ (m1 m2 : List (String × Nat)) (id : String),
    mapGet (m1 ++ m2) id =
      match mapGet m1 id with
      | some h => some h
      | none => mapGet m2 id := by
  intro m1
  induction m1 with
  | nil => intro m2 id; rfl
  | cons p rest ih =>
      intro m2 id
      show mapGet (p :: (rest ++ m2)) id = _
      by_cases hq : p.1 == id
      · simp [mapGet, hq]
      · simp [mapGet, hq, ih m2 id]

lemma mapGet_singleton_some (id id0 : String) (h h0 : Nat)
    (hm : mapGet [(id0, h0)] id = some h) : id = id0 ∧ h = h0 := by
  by_cases hq : id0 == id
  · have hpe : id0 = id := by simpa using hq
    unfold mapGet at hm
    dsimp only at hm
    rw [if_pos hq] at hm
    injection hm with hv
    exact ⟨hpe.symm, hv.symm⟩
  · unfold mapGet at hm
    dsimp only at hm
    rw [if_neg hq] at hm
    cases hm

lemma not_mem_keys_of_mapGet_none : ∀ (m : List (String × Nat)) (id : String),
    mapGet m id = none → id ∉ m.map Prod.fst := by
  intro m
  induction m with
  | nil => intro id _ hc; simp at hc
  | cons p rest ih =>
      intro id hm hc
      unfold mapGet at hm
      by_cases hq : p.1 == id
      · rw [if_pos hq] at hm
        cases hm
      · rw [if_neg hq] at hm
        rw [List.map_cons] at hc
        rcases List.mem_cons.mp hc with he | ht
        · exact absurd (by simp [he] : (p.1 == id) = true) (by simpa using hq)
        · exact ih id hm ht

lemma mapGet_mapDelete_ne : ∀ (m : List (String × Nat)) (id id0 : String),
    id ≠ id0 → mapGet (mapDelete m id0) id = mapGet m id := by
  intro m
  induction m with
  | nil => intro id id0 _; rfl
  | cons p rest ih =>
      intro id id0 hne
      unfold mapDelete
      by_cases hq : p.1 == id0
      · rw [if_pos hq]
        have hp : p.1 = id0 := by simpa using hq
        have hne2 : ¬ (p.1 == id) = true := by
          simp only [hp, beq_iff_eq]
          exact fun hc => hne hc.symm
        conv_rhs => unfold mapGet
        rw [if_neg hne2]
      · rw [if_neg hq]
        unfold mapGet
        by_cases hq2 : p.1 == id
        · rw [if_pos hq2, if_pos hq2]
        · rw [if_neg hq2, if_neg hq2]
          exact ih id id0 hne

lemma mapDelete_sublist : ∀ (m : List (String × Nat)) (id : String),
    (mapDelete m id).Sublist m := by
  intro m
  induction m with
  | nil => intro id; exact List.Sublist.refl _
  | cons p rest ih =>
      intro id
      unfold mapDelete
      by_cases hq : p.1 == id
      · rw [if_pos hq]
        exact List.Sublist.cons p (List.Sublist.refl rest)
      · rw [if_neg hq]
        exact List.Sublist.cons₂ p (ih id)

lemma mapGet_of_mem_nodup : ∀ (m : List (String × Nat)) (id : String) (h : Nat),
    (m.map Prod.fst).Nodup → (id, h) ∈ m → mapGet m id = some h := by
  intro m
  induction m with
  | nil => intro id h _ hmem; cases hmem
  | cons p rest ih =>
      intro id h hnd hmem
      have hnd2 : (rest.map Prod.fst).Nodup := (List.nodup_cons.mp (by simpa using hnd)).2
      have hnotin : p.1 ∉ rest.map Prod.fst := (List.nodup_cons.mp (by simpa using hnd)).1
      rcases List.mem_cons.mp hmem with he | ht
      · rw [← he]
        unfold mapGet
        rw [if_pos (by simp)]
      · have hidin : id ∈ rest.map Prod.fst := by
          simpa using List.mem_map_of_mem Prod.fst ht
        have hp1 : ¬ (p.1 == id) = true := by
          intro hc
          exact hnotin (by rw [show p.1 = id from by simpa using hc]; exact hidin)
        unfold mapGet
        rw [if_neg hp1]
        exact ih id h hnd2 ht

lemma mem_mapDelete_of_ne : ∀ (m : List (String × Nat)) (id : String) (p : String × Nat),
    p ∈ m → p.1 ≠ id → p ∈ mapDelete m id := by
  intro m
  induction m with
  | nil => intro id p hp _; cases hp
  | cons q rest ih =>
      intro id p hp hne
      unfold mapDelete
      by_cases hq : q.1 == id
      · rw [if_pos hq]
        rcases List.mem_cons.mp hp with he | ht
        · exfalso
          apply hne
          rw [he]
          simpa using hq
        · exact ht
      · rw [if_neg hq]
        rcases List.mem_cons.mp hp with he | ht
        · rw [he]
          exact List.mem_cons_self _ _
        · exact List.mem_cons_of_mem _ (ih id p ht hne)

lemma invC_of_eq (c c2 : AnimationController) (h1 : c2.animations = c.animations)
    (h2 : c2.animStatus = c.animStatus) (hinv : InvC c) : InvC c2 := by
  unfold InvC at hinv ⊢
  obtain ⟨hnd, hinj, hcl, hrun⟩ := hinv
  refine ⟨by rw [h1]; exact hnd, ?_, ?_, ?_⟩
  · intro id1 id2 h hm1 hm2
    rw [h1] at hm1 hm2
    exact hinj id1 id2 h hm1 hm2
  · intro id h hm
    rw [h1] at hm
    rw [h2]
    exact hcl id h hm
  · intro h hr
    rw [h2] at hr
    rw [h1]
    exact hrun h hr

lemma invC_callPause (h : Nat) (c : AnimationController) (hinv : InvC c) :
    InvC (callPause h c) := by
  unfold InvC at hinv ⊢
  obtain ⟨hnd, hinj, hcl, hrun⟩ := hinv
  refine ⟨by simpa using hnd, ?_, ?_, ?_⟩
  · intro id1 id2 h0 hm1 hm2
    rw [callPause_animations] at hm1 hm2
    exact hinj id1 id2 h0 hm1 hm2
  · intro id h0 hm
    rw [callPause_animations] at hm
    show Function.update c.animStatus h AnimStatus.paused h0 ≠ AnimStatus.cleaned
    by_cases he : h0 = h
    · subst he
      rw [Function.update_same]
      decide
    · rw [Function.update_noteq he]
      exact hcl id h0 hm
  · intro h0 hr
    rw [callPause_animations]
    have hr2 : Function.update c.animStatus h AnimStatus.paused h0 = AnimStatus.running := hr
    by_cases he : h0 = h
    · subst he
      rw [Function.update_same] at hr2
      cases hr2
    · rw [Function.update_noteq he] at hr2
      exact hrun h0 hr2

lemma invC_callStart (h : Nat) (c : AnimationController)
    (hmem : h ∈ c.animations.map Prod.snd) (hinv : InvC c) : InvC (callStart h c) := by
  unfold InvC at hinv ⊢
  obtain ⟨hnd, hinj, hcl, hrun⟩ := hinv
  refine ⟨by simpa using hnd, ?_, ?_, ?_⟩
  · intro id1 id2 h0 hm1 hm2
    rw [callStart_animations] at hm1 hm2
    exact hinj id1 id2 h0 hm1 hm2
  · intro id h0 hm
    rw [callStart_animations] at hm
    show Function.update c.animStatus h AnimStatus.running h0 ≠ AnimStatus.cleaned
    by_cases he : h0 = h
    · subst he
      rw [Function.update_same]
      decide
    · rw [Function.update_noteq he]
      exact hcl id h0 hm
  · intro h0 hr
    rw [callStart_animations]
    have hr2 : Function.update c.animStatus h AnimStatus.running h0 = AnimStatus.running := hr
    by_cases he : h0 = h
    · subst he
      exact hmem
    · rw [Function.update_noteq he] at hr2
      exact hrun h0 hr2

lemma invC_register (id : String) (h : Nat) (c : AnimationController)
    (hw : mapGet c.animations id = none ∧ c.animStatus h = AnimStatus.paused ∧
      h ∉ c.animations.map Prod.snd)
    (hinv : InvC c) : InvC (registerSection id h c) := by
  obtain ⟨hnone, hpaused, hfresh⟩ := hw
  unfold InvC at hinv ⊢
  obtain ⟨hnd, hinj, hcl, hrun⟩ := hinv
  have hanim : (registerSection id h c).animations = c.animations ++ [(id, h)] := by
    unfold registerSection
    rw [refreshCount_animations]
    show mapSet c.animations id h = _
    exact mapSet_eq_append c.animations id h hnone
  have hstat : (registerSection id h c).animStatus = c.animStatus := by
    unfold registerSection
    rw [refreshCount_animStatus]
  refine ⟨?_, ?_, ?_, ?_⟩
  · rw [hanim, List.map_append]
    refine List.Nodup.append hnd (by simp) ?_
    intro a ha hb
    have : a = id := by simpa using hb
    subst this
    exact not_mem_keys_of_mapGet_none c.animations a hnone ha
  · intro id1 id2 h0 hm1 hm2
    rw [hanim, mapGet_append] at hm1 hm2
    cases hg1 : mapGet c.animations id1 with
    | some v1 =>
        simp only [hg1] at hm1
        injection hm1 with hv1
        cases hg2 : mapGet c.animations id2 with
        | some v2 =>
            simp only [hg2] at hm2
            injection hm2 with hv2
            rw [hv1] at hg1
            rw [hv2] at hg2
            exact hinj id1 id2 h0 hg1 hg2
        | none =>
            simp only [hg2] at hm2
            obtain ⟨he2, hh2⟩ := mapGet_singleton_some id2 id h0 h hm2
            exfalso
            apply hfresh
            rw [hv1] at hg1
            rw [hh2] at hg1
            have hmm := mapGet_some_mem _ _ _ hg1
            simpa using List.mem_map_of_mem Prod.snd hmm
    | none =>
        simp only [hg1] at hm1
        obtain ⟨he1, hh1⟩ := mapGet_singleton_some id1 id h0 h hm1
        cases hg2 : mapGet c.animations id2 with
        | some v2 =>
            simp only [hg2] at hm2
            injection hm2 with hv2
            exfalso
            apply hfresh
            rw [hv2] at hg2
            rw [hh1] at hg2
            have hmm := mapGet_some_mem _ _ _ hg2
            simpa using List.mem_map_of_mem Prod.snd hmm
        | none =>
            simp only [hg2] at hm2
            obtain ⟨he2, _⟩ := mapGet_singleton_some id2 id h0 h hm2
            rw [he1, he2]
  · intro id0 h0 hm
    rw [hanim, mapGet_append] at hm
    rw [hstat]
    cases hg : mapGet c.animations id0 with
    | some v =>
        simp only [hg] at hm
        injection hm with hv
        rw [hv] at hg
        exact hcl id0 h0 hg
    | none =>
        simp only [hg] at hm
        obtain ⟨_, hh⟩ := mapGet_singleton_some id0 id h0 h hm
        rw [hh, hpaused]
        decide
  · intro h0 hr
    rw [hstat] at hr
    rw [hanim, List.map_append]
    exact List.mem_append_left _ (hrun h0 hr)

lemma invC_unregister (id : String) (c : AnimationController) (hinv : InvC c) :
    InvC (unregisterSection id c) := by
  have hinv2 := hinv
  unfold InvC at hinv2
  obtain ⟨hnd, hinj, hcl, hrun⟩ := hinv2
  unfold unregisterSection
  cases hm : mapGet c.animations id with
  | none => exact hinv
  | some h =>
      have hanim : (refreshCount (dropVisible id (deleteAnim id (callCleanup h c)))).animations
          = mapDelete c.animations id := by
        rw [refreshCount_animations, dropVisible_animations, deleteAnim_animations,
          callCleanup_animations]
      have hstat : (refreshCount (dropVisible id (deleteAnim id (callCleanup h c)))).animStatus
          = Function.update c.animStatus h AnimStatus.cleaned := by
        rw [refreshCount_animStatus, dropVisible_animStatus, deleteAnim_animStatus]
        rfl
      unfold InvC
      refine ⟨?_, ?_, ?_, ?_⟩
      · rw [hanim]
        exact List.Nodup.sublist (List.Sublist.map Prod.fst (mapDelete_sublist c.animations id)) hnd
      · intro id1 id2 h0 hm1 hm2
        rw [hanim] at hm1 hm2
        by_cases he1 : id1 = id
        · exfalso
          rw [he1, mapGet_mapDelete_self c.animations id hnd] at hm1
          cases hm1
        · by_cases he2 : id2 = id
          · exfalso
            rw [he2, mapGet_mapDelete_self c.animations id hnd] at hm2
            cases hm2
          · rw [mapGet_mapDelete_ne c.animations id1 id he1] at hm1
            rw [mapGet_mapDelete_ne c.animations id2 id he2] at hm2
            exact hinj id1 id2 h0 hm1 hm2
      · intro id0 h0 hm0
        rw [hanim] at hm0
        rw [hstat]
        by_cases he : id0 = id
        · exfalso
          rw [he, mapGet_mapDelete_self c.animations id hnd] at hm0
          cases hm0
        · rw [mapGet_mapDelete_ne c.animations id0 id he] at hm0
          have hne : h0 ≠ h := by
            intro hc
            apply he
            apply hinj id0 id h0 hm0
            rw [hc]
            exact hm
          rw [Function.update_noteq hne]
          exact hcl id0 h0 hm0
      · intro h0 hr
        rw [hstat] at hr
        rw [hanim]
        by_cases he : h0 = h
        · exfalso
          rw [he, Function.update_same] at hr
          cases hr
        · rw [Function.update_noteq he] at hr
          have hmem := hrun h0 hr
          rcases List.mem_map.mp hmem with ⟨p, hp, hps⟩
          have hp1 : p.1 ≠ id := by
            intro hc
            have hg : mapGet c.animations p.1 = some p.2 :=
              mapGet_of_mem_nodup c.animations p.1 p.2 hnd hp
            rw [hc, hm] at hg
            injection hg with hv
            exact he (by rw [← hps, hv])
          exact List.mem_map.mpr ⟨p, mem_mapDelete_of_ne c.animations id p hp hp1, hps⟩

lemma invC_handleEntry (c : AnimationController) (e : String × Bool) (hinv : InvC c) :
    InvC (handleEntry c e) := by
  unfold handleEntry
  cases hm : mapGet c.animations e.1 with
  | none => exact hinv
  | some h =>
      dsimp only
      by_cases hvis : e.2
      · rw [if_pos hvis]
        by_cases hfl : (!c.state.reducedMotionEnabled && c.state.isActive) = true
        · rw [if_pos hfl]
          apply invC_callStart
          · rw [setCurrent_animations, addVisible_animations]
            have hmm := mapGet_some_mem _ _ _ hm
            simpa using List.mem_map_of_mem Prod.snd hmm
          · exact invC_of_eq c _ (by rw [setCurrent_animations, addVisible_animations])
              (by rw [setCurrent_animStatus, addVisible_animStatus]) hinv
        · rw [if_neg hfl]
          exact invC_of_eq c _ (by rw [setCurrent_animations, addVisible_animations])
            (by rw [setCurrent_animStatus, addVisible_animStatus]) hinv
      · rw [if_neg hvis]
        apply invC_callPause
        exact invC_of_eq c _ (dropVisible_animations e.1 c) (dropVisible_animStatus e.1 c) hinv

lemma invC_intersect : ∀ (es : List (String × Bool)) (c : AnimationController),
    InvC c → InvC (handleIntersection es c) := by
  intro es
  induction es with
  | nil => intro c hinv; exact hinv
  | cons e es ih =>
      intro c hinv
      show InvC (handleIntersection es (handleEntry c e))
      exact ih _ (invC_handleEntry c e hinv)

lemma invC_pauseAll (c : AnimationController) (hinv : InvC c) : InvC (pauseAll c) := by
  unfold InvC at hinv ⊢
  obtain ⟨hnd, hinj, hcl, hrun⟩ := hinv
  rw [show pauseAll c = _ from pauseFold_eq c.animations c]
  refine ⟨by simpa using hnd, ?_, ?_, ?_⟩
  · intro id1 id2 h0 hm1 hm2
    exact hinj id1 id2 h0 hm1 hm2
  · intro id0 h0 hm0
    have hm0c : mapGet c.animations id0 = some h0 := hm0
    show (if h0 ∈ c.animations.map Prod.snd then AnimStatus.paused else c.animStatus h0)
      ≠ AnimStatus.cleaned
    by_cases hmem : h0 ∈ c.animations.map Prod.snd
    · rw [if_pos hmem]
      decide
    · rw [if_neg hmem]
      exact hcl id0 h0 hm0c
  · intro h0 hr
    have hr2 : (if h0 ∈ c.animations.map Prod.snd then AnimStatus.paused else c.animStatus h0)
        = AnimStatus.running := hr
    show h0 ∈ c.animations.map Prod.snd
    by_cases hmem : h0 ∈ c.animations.map Prod.snd
    · exact hmem
    · rw [if_neg hmem] at hr2
      exact hrun h0 hr2

lemma invC_startVisible (c : AnimationController) (hinv : InvC c) : InvC (startVisible c) := by
  unfold InvC at hinv ⊢
  obtain ⟨hnd, hinj, hcl, hrun⟩ := hinv
  rw [show startVisible c = _ from startFold_eq c.visible c]
  refine ⟨by simpa using hnd, ?_, ?_, ?_⟩
  · intro id1 id2 h0 hm1 hm2
    exact hinj id1 id2 h0 hm1 hm2
  · intro id0 h0 hm0
    have hm0c : mapGet c.animations id0 = some h0 := hm0
    show (if ∃ i, i ∈ c.visible ∧ mapGet c.animations i = some h0 then AnimStatus.running
      else c.animStatus h0) ≠ AnimStatus.cleaned
    by_cases hex : ∃ i, i ∈ c.visible ∧ mapGet c.animations i = some h0
    · rw [if_pos hex]
      decide
    · rw [if_neg hex]
      exact hcl id0 h0 hm0c
  · intro h0 hr
    have hr2 : (if ∃ i, i ∈ c.visible ∧ mapGet c.animations i = some h0 then AnimStatus.running
        else c.animStatus h0) = AnimStatus.running := hr
    show h0 ∈ c.animations.map Prod.snd
    by_cases hex : ∃ i, i ∈ c.visible ∧ mapGet c.animations i = some h0
    · rcases hex with ⟨i, _, hmi⟩
      have hmm := mapGet_some_mem _ _ _ hmi
      simpa using List.mem_map_of_mem Prod.snd hmm
    · rw [if_neg hex] at hr2
      exact hrun h0 hr2

lemma invC_setActive (b : Bool) (c : AnimationController) (hinv : InvC c) :
    InvC (setActive b c) := by
  unfold setActive
  by_cases hb : (!b) = true
  · rw [if_pos hb]
    exact invC_pauseAll _
      (invC_of_eq c _ (setActiveFlag_animations b c) (setActiveFlag_animStatus b c) hinv)
  · rw [if_neg hb]
    by_cases hrm : (!c.state.reducedMotionEnabled) = true
    · rw [if_pos hrm]
      exact invC_startVisible _
        (invC_of_eq c _ (setActiveFlag_animations b c) (setActiveFlag_animStatus b c) hinv)
    · rw [if_neg hrm]
      exact invC_of_eq c _ (setActiveFlag_animations b c) (setActiveFlag_animStatus b c) hinv

lemma invC_rmChange (m : Bool) (c : AnimationController) (hinv : InvC c) :
    InvC (reducedMotionChange m c) := by
  unfold reducedMotionChange
  by_cases hm : m = true
  · rw [if_pos hm]
    exact invC_pauseAll _
      (invC_of_eq c _ (setRMFlag_animations m c) (setRMFlag_animStatus m c) hinv)
  · rw [if_neg hm]
    by_cases ha : c.state.isActive = true
    · rw [if_pos ha]
      exact invC_startVisible _
        (invC_of_eq c _ (setRMFlag_animations m c) (setRMFlag_animStatus m c) hinv)
    · rw [if_neg ha]
      exact invC_of_eq c _ (setRMFlag_animations m c) (setRMFlag_animStatus m c) hinv

lemma invC_animErrorState (id : String) (c : AnimationController) (hinv : InvC c) :
    InvC (animErrorState id c) := by
  unfold animErrorState
  cases hh : handleAnimationErrorDom id c with
  | none =>
      dsimp only
      exact invC_of_eq c _ (warnEvent_animations _ c) (warnEvent_animStatus _ c) hinv
  | some c2 =>
      dsimp only
      unfold handleAnimationErrorDom at hh
      cases ha : applyStaticFallbackDom id (warnEvent (("Animation error in ") ++ id) c) with
      | none =>
          rw [ha] at hh
          cases hh
      | some c3 =>
          rw [ha] at hh
          dsimp only at hh
          injection hh with hv
          rw [← hv]
          apply invC_unregister
          obtain ⟨h1, h2⟩ := applyStaticFallbackDom_core id _ c3 ha
          exact invC_of_eq c c3 (by rw [h1, warnEvent_animations])
            (by rw [h2, warnEvent_animStatus]) hinv

lemma invC_applyOpDom (c : AnimationController) (op : COp) (hw : WFHead c op)
    (hinv : InvC c) : InvC (applyOpDom c op) := by
  cases op with
  | register id h => exact invC_register id h c hw hinv
  | unregister id => exact invC_unregister id c hinv
  | intersect es => exact invC_intersect es c hinv
  | activate b => exact invC_setActive b c hinv
  | rmSet m => exact invC_rmChange m c hinv
  | animError id => exact invC_animErrorState id c hinv

lemma invC_runDom : ∀ (ops : List COp) (c : AnimationController),
    WFOpsDom c ops → InvC c → InvC (runDom c ops) := by
  intro ops
  induction ops with
  | nil => intro c _ hinv; exact hinv
  | cons op rest ih =>
      intro c hw hinv
      have hw2 : WFHead c op ∧ WFOpsDom (applyOpDom c op) rest := hw
      show InvC (runDom (applyOpDom c op) rest)
      exact ih _ hw2.2 (invC_applyOpDom c op hw2.1 hinv)

lemma initController_animations (supported : Bool) (t0 : ℚ) (rm : Bool)
    (dom0 : String → Option (List String)) :
    (initController supported t0 rm dom0).animations = [] := by
  cases supported <;> rfl

lemma initController_animStatus (supported : Bool) (t0 : ℚ) (rm : Bool)
    (dom0 : String → Option (List String)) :
    (initController supported t0 rm dom0).animStatus = fun _ => AnimStatus.paused := by
  cases supported <;> rfl

lemma invC_init (supported : Bool) (t0 : ℚ) (rm : Bool)
    (dom0 : String → Option (List String)) :
    InvC (initController supported t0 rm dom0) := by
  unfold InvC
  refine ⟨?_, ?_, ?_, ?_⟩
  · rw [initController_animations]
    simp
  · intro id1 id2 h hm1 hm2
    rw [initController_animations] at hm1
    simp [mapGet] at hm1
  · intro id h hm
    rw [initController_animations] at hm
    simp [mapGet] at hm
  · intro h hr
    rw [initController_animStatus] at hr
    simp at hr
/-- Claim C3 (amended): under the real `classList.add` semantics of the
error handler (a throw leaves the controller state at the throw point), and
provided every registerSection call in the sequence registers a currently
unregistered id with a fresh animation (paused and not registered under
another id), each section is at every observation point in exactly one of
the three states Registered-Running, Registered-Paused, Unregistered — in
particular an animation that is not in the registration map is never
running.  On the resulting controller `unregisterSection` takes any
registered section to Unregistered and invokes `cleanup()`; fatal-error
handling does so exactly on the runs it completes, and it throws (leaving
the section registered, with no cleanup) precisely when the section
container exists and the fallback class is not a single valid token.
Without the freshness condition the invariant fails (see the
counterexample): re-registering an id overwrites the map entry while the
replaced animation keeps running unregistered. -/
theorem c3_section_lifecycle (supported : Bool) (t0 : ℚ) (rm : Bool)
    (dom0 : String → Option (List String)) (ops : List COp)
    (hwf : WFOpsDom (initController supported t0 rm dom0) ops) :
    InvC (runDom (initController supported t0 rm dom0) ops) ∧
    (∀ id,
      (sectionRunning (runDom (initController supported t0 rm dom0) ops) id ∨
       sectionPaused (runDom (initController supported t0 rm dom0) ops) id ∨
       sectionUnregistered (runDom (initController supported t0 rm dom0) ops) id) ∧
      ¬ (sectionRunning (runDom (initController supported t0 rm dom0) ops) id ∧
         sectionPaused (runDom (initController supported t0 rm dom0) ops) id) ∧
      ¬ (sectionRunning (runDom (initController supported t0 rm dom0) ops) id ∧
         sectionUnregistered (runDom (initController supported t0 rm dom0) ops) id) ∧
      ¬ (sectionPaused (runDom (initController supported t0 rm dom0) ops) id ∧
         sectionUnregistered (runDom (initController supported t0 rm dom0) ops) id)) ∧
    (∀ id h,
      mapGet (runDom (initController supported t0 rm dom0) ops).animations id = some h →
      mapGet (unregisterSection id
          (runDom (initController supported t0 rm dom0) ops)).animations id = none ∧
        (unregisterSection id (runDom (initController supported t0 rm dom0) ops)).animStatus h
          = AnimStatus.cleaned ∧
        CEvent.cleanupCall h
          ∈ (unregisterSection id (runDom (initController supported t0 rm dom0) ops)).events ∧
        (∀ c2, handleAnimationErrorDom id (runDom (initController supported t0 rm dom0) ops)
            = some c2 →
          mapGet c2.animations id = none ∧ c2.animStatus h = AnimStatus.cleaned ∧
            CEvent.cleanupCall h ∈ c2.events) ∧
        (handleAnimationErrorDom id (runDom (initController supported t0 rm dom0) ops) = none ↔
          invalidToken (fallbackClassFor id) = true ∧
            ∃ classes, (runDom (initController supported t0 rm dom0) ops).dom id
              = some classes)) := by
  have hinv : InvC (runDom (initController supported t0 rm dom0) ops) :=
    invC_runDom ops _ hwf (invC_init supported t0 rm dom0)
  have hinv2 := hinv
  unfold InvC at hinv2
  obtain ⟨hnd, hinj, hcl, hrun⟩ := hinv2
  refine ⟨hinv, ?_, ?_⟩
  · intro id
    simp only [sectionRunning, sectionPaused, sectionUnregistered]
    refine ⟨?_, ?_, ?_, ?_⟩
    · cases hg : mapGet (runDom (initController supported t0 rm dom0) ops).animations id with
      | none => exact Or.inr (Or.inr rfl)
      | some h =>
          cases hst : (runDom (initController supported t0 rm dom0) ops).animStatus h with
          | running => exact Or.inl ⟨h, rfl, hst⟩
          | paused => exact Or.inr (Or.inl ⟨h, rfl, hst⟩)
          | cleaned => exact absurd hst (hcl id h hg)
    · rintro ⟨⟨h1, hg1, hs1⟩, ⟨h2, hg2, hs2⟩⟩
      rw [hg1] at hg2
      injection hg2 with hv
      rw [← hv] at hs2
      rw [hs1] at hs2
      cases hs2
    · rintro ⟨⟨h1, hg1, _⟩, hun⟩
      rw [hun] at hg1
      cases hg1
    · rintro ⟨⟨h1, hg1, _⟩, hun⟩
      rw [hun] at hg1
      cases hg1
  · intro id h hg
    have hcln :=
      unregisterSection_cleans id (runDom (initController supported t0 rm dom0) ops) h hg
    refine ⟨unregisterSection_mapGet_self id _ hnd, hcln.1, hcln.2, ?_,
      handleAnimationErrorDom_none_iff id _⟩
    intro c2 hc2
    unfold handleAnimationErrorDom at hc2
    cases ha : applyStaticFallbackDom id (warnEvent (("Animation error in ") ++ id)
        (runDom (initController supported t0 rm dom0) ops)) with
    | none =>
        rw [ha] at hc2
        cases hc2
    | some c3 =>
        rw [ha] at hc2
        dsimp only at hc2
        injection hc2 with hv
        obtain ⟨h1, h2⟩ := applyStaticFallbackDom_core id _ c3 ha
        have hanim3 : c3.animations
            = (runDom (initController supported t0 rm dom0) ops).animations := by
          rw [h1, warnEvent_animations]
        have hg3 : mapGet c3.animations id = some h := by
          rw [hanim3]
          exact hg
        have hcln3 := unregisterSection_cleans id c3 h hg3
        have hnone3 : mapGet (unregisterSection id c3).animations id = none := by
          apply unregisterSection_mapGet_self
          rw [hanim3]
          exact hnd
        rw [← hv]
        exact ⟨hnone3, hcln3.1, hcln3.2⟩

/-- A run that re-registers the id of a visible, running section with a new
animation object, as two mounts of the same section id would. -/
def c3bad : AnimationController :=
  runDom ctrlBase [COp.register ("a") 0, COp.intersect [(("a"), true)], COp.register ("a") 1]

/-- Counterexample to claim C3 as stated: after registering section `a`
(animation 0), letting it start, and registering `a` again with a new
animation 1, animation 0 is still running although it is no longer in the
registration map — a running-while-unregistered animation, and no
`cleanup()` was ever invoked on it. -/
theorem c3_counterexample :
    c3bad.animStatus 0 = AnimStatus.running ∧
    0 ∉ c3bad.animations.map Prod.snd ∧
    CEvent.cleanupCall 0 ∉ c3bad.events := by
  with_unfolding_all decide

/-- Registration sequence used in the C3 witness. -/
def c3ops : List COp := [COp.register ("a") 0, COp.intersect [(("a"), true)]]

/-- Witness for C3: the amended theorem applied to a concrete run — a
well-formed registration followed by a visibility signal preserves the
lifecycle invariant. -/
theorem c3_section_lifecycle_witness :
    WFOpsDom (initController true 1000 false domNone) c3ops ∧
    InvC (runDom (initController true 1000 false domNone) c3ops) := by
  have hwf : WFOpsDom (initController true 1000 false domNone) c3ops := by
    simp only [c3ops, WFOpsDom, WFHead]
    refine ⟨⟨?_, ?_, ?_⟩, trivial, trivial⟩
    · with_unfolding_all decide
    · with_unfolding_all decide
    · with_unfolding_all decide
  exact ⟨hwf, (c3_section_lifecycle true 1000 false domNone c3ops hwf).1⟩

end AuxoAnim
